import Mathlib

/-!
# python-lzo: the block wrapper around the LZO1X codec

A shallow embedding of `src/lzomodule.c`.  The LZO library itself (the
compressors, the safe decompressor, the optimizer and the two checksums) is an
external collaborator: it appears here as a record of functions, and every
statement below is proved for an arbitrary such record unless it says
otherwise.

Conventions of the embedding

* a byte buffer is a `List Byte`; the `(pointer, length)` pair handed over by
  the argument parser is the list and its length (lengths are taken to be
  representable in the C variable that receives them);
* `compress`, `decompress` and `optimize` take the values their `int` variables
  hold once the argument tuple is parsed; what an absent optional argument leaves
  in its variable is the business of the argument parser and is modelled apart
  (`decompress_call`), because line 1 defines `PY_SSIZE_T_CLEAN` and the format
  `s#` then stores an 8-byte length through the 4-byte `int len`;
* an integer argument parsed with the format `I` keeps its low 32 bits
  (`parse_I` for an `int` variable, `% 2 ^ 32` for an `lzo_uint32`);
* memory that was allocated but not yet written has unspecified contents: it is
  read from a parameter `mem : Nat → Byte`;
* a codec entry point returns its status, the length it reports through its
  `out_len` pointer and the bytes it stored at the start of its output region;
* allocation is taken to succeed (apart from the negative size that
  `decompress_block` can pass on), so `PyErr_NoMemory` after a failed `malloc`
  is not modelled.
-/

namespace Lzo

/-! ## Data model -/

/-- An `unsigned char`. -/
abbrev Byte := Fin 256

/-- The `(unsigned char)` conversion of a non-negative value. -/
def toByte (n : Nat) : Byte := ⟨n % 256, Nat.mod_lt _ (by decide)⟩

/-- The `(int)` conversion of an unsigned value: its low 32 bits read in two's
complement. -/
def toInt32 (v : Nat) : Int :=
  if v % 2 ^ 32 < 2 ^ 31 then ((v % 2 ^ 32 : Nat) : Int) else ((v % 2 ^ 32 : Nat) : Int) - 2 ^ 32

/-- The value an `int` variable holds after the argument parser stored a Python
integer in it with the format `I` (no overflow check): the low 32 bits of the
integer, read in two's complement. -/
def parse_I (v : Int) : Int := toInt32 (v % 2 ^ 32).toNat

/-- What one call of a codec entry point leaves behind: the returned status, the
length stored through the `out_len` pointer, and the bytes written from the start
of the output region. -/
structure CodecResult where
  err : Int
  len : Nat
  data : List Byte
  deriving DecidableEq, Repr

/-- The LZO library the module is built against.  `LZO_E_OK` is the success
status of `lzoconf.h`; `USE_LIBLZO` is the build flag that compiles in the
mid-tier and exhaustive block methods.  The compressors take the source bytes;
the safe decompressor and the optimizer also take the capacity found in
`*out_len` on entry; the checksums take the running value first. -/
structure Library where
  LZO_E_OK : Int
  USE_LIBLZO : Bool
  lzo1x_1_compress : List Byte → CodecResult
  lzo1x_999_compress : List Byte → CodecResult
  lzo1x_1_15_compress : List Byte → CodecResult
  lzo1x_999_compress_level : List Byte → Int → CodecResult
  lzo1x_decompress_safe : List Byte → Nat → CodecResult
  lzo1x_optimize : List Byte → Nat → CodecResult
  lzo_adler32 : Nat → List Byte → Nat
  lzo_crc32 : Nat → List Byte → Nat

/-- The exceptions the module raises, one constructor per message of the source:
`HeaderError` is "Header error - invalid compressed data", `MissingLength` is
"Argument buflen required for headerless ...", `UnsupportedVariant` is
"Compression method not supported", `CodecError e` is "Error e while compressing
data", `CorruptData e` is "Compressed data violation e", `InternalError` is
"internal error - decompression failed" and `OutOfMemory` is `PyErr_NoMemory`. -/
inductive LzoErr where
  | HeaderError
  | MissingLength
  | UnsupportedVariant
  | CodecError (code : Int)
  | CorruptData (code : Int)
  | InternalError
  | OutOfMemory
  deriving DecidableEq, Repr

/-- What an entry point hands back to the interpreter: a bytes object, `NULL` with
an exception set, or a bare `NULL` with no exception set. -/
inductive PyResult where
  | ok (bytes : List Byte)
  | error (e : LzoErr)
  | null
  deriving DecidableEq, Repr

/-- The method tag `M_LZO1X_1` of line 19. -/
def M_LZO1X_1 : Int := 1
/-- The method tag `M_LZO1X_1_15` of line 20. -/
def M_LZO1X_1_15 : Int := 2
/-- The method tag `M_LZO1X_999` of line 21. -/
def M_LZO1X_999 : Int := 3

/-! ## Buffers -/

/-- A freshly allocated buffer of `n` bytes (`PyBytes_FromStringAndSize(NULL, n)`,
`PyMem_Malloc(n)`): its contents are whatever the memory held. -/
def fresh (mem : Nat → Byte) (n : Nat) : List Byte := (List.range n).map mem

/-- The effect on the region `buf` of a callee that writes `data` from its first
byte on; the region keeps its size. -/
def store (buf data : List Byte) : List Byte :=
  data.take buf.length ++ buf.drop data.length

/-- The call `_PyBytes_Resize(&buf, n)`: the first `min n (len buf)` bytes stay, a grown
tail is unwritten memory. -/
def resize (mem : Nat → Byte) (buf : List Byte) (n : Nat) : List Byte :=
  buf.take n ++ fresh mem (n - buf.length)

/-! ## The entry points of `lzomodule.c` -/

/-- The function `compress` (lines 39-133).  `level` and `header` are the two
optional `int` arguments (both default to 1). -/
def compress (L : Library) (mem : Nat → Byte) (input : List Byte) (level header : Int) :
    PyResult :=
  let in_len := input.length
  let out_len := in_len + in_len / 16 + 64 + 3
  let result_str := fresh mem (5 + out_len)
  -- outc = header ? out+5 : out
  let off := if header ≠ 0 then 5 else 0
  let out1 :=
    if level = 1 then
      (if header ≠ 0 then result_str.set 0 0xf0 else result_str)
    else
      (if header ≠ 0 then result_str.set 0 0xf1 else result_str)
  let r := if level = 1 then L.lzo1x_1_compress input else L.lzo1x_999_compress input
  let out2 := out1.take off ++ store (out1.drop off) r.data
  if r.err ≠ L.LZO_E_OK ∨ r.len > out_len then
    PyResult.error (LzoErr.CodecError r.err)
  else
    let out3 :=
      if header ≠ 0 then
        (((out2.set 1 (toByte ((in_len >>> 24) &&& 0xff))).set 2
          (toByte ((in_len >>> 16) &&& 0xff))).set 3
          (toByte ((in_len >>> 8) &&& 0xff))).set 4
          (toByte ((in_len >>> 0) &&& 0xff))
      else out2
    if r.len ≠ out_len then
      PyResult.ok (resize mem out3 (if header ≠ 0 then r.len + 5 else r.len))
    else
      PyResult.ok out3

/-- The byte `in[i]` as an `int`. -/
def byteAt (buf : List Byte) (i : Nat) : Nat := (buf.getD i 0).val

/-- The value `(in[1] << 24) | (in[2] << 16) | (in[3] << 8) | in[4]`, as the 32-bit
pattern it has before the sign is looked at. -/
def read_out_len (buf : List Byte) : Nat :=
  (byteAt buf 1 <<< 24) ||| (byteAt buf 2 <<< 16) ||| (byteAt buf 3 <<< 8) ||| byteAt buf 4

/-- The function `decompress` (lines 140-210).  `header` defaults to 1 and
`buflen` to -1. -/
def decompress (L : Library) (mem : Nat → Byte) (input : List Byte) (header buflen : Int) :
    PyResult :=
  let len := input.length
  let parsed : Except LzoErr (List Byte × Nat) :=
    if header ≠ 0 then
      if len < 5 + 3 ∨ byteAt input 0 < 0xf0 ∨ byteAt input 0 > 0xf1 then
        Except.error LzoErr.HeaderError
      else
        let out_len := read_out_len input
        let in_len := len - 5
        if toInt32 out_len < 0 ∨ in_len > out_len + out_len / 64 + 16 + 3 then
          Except.error LzoErr.HeaderError
        else
          Except.ok (input.drop 5, out_len)
    else
      if buflen < 0 then Except.error LzoErr.MissingLength
      else Except.ok (input, buflen.toNat)
  match parsed with
  | Except.error e => PyResult.error e
  | Except.ok (src, out_len) =>
    let result_str := fresh mem out_len
    let r := L.lzo1x_decompress_safe src out_len
    let out := store result_str r.data
    if r.err ≠ L.LZO_E_OK ∨ (header ≠ 0 ∧ r.len ≠ out_len) then
      PyResult.error (LzoErr.CorruptData r.err)
    else if header = 0 ∧ r.len ≠ out_len then
      PyResult.ok (resize mem out r.len)
    else
      PyResult.ok out

/-- The function `optimize` (lines 225-298).  The optimizer rewrites its source
region in place; `data` of its result is what it stored there. -/
def optimize (L : Library) (input : List Byte) (header buflen : Int) : PyResult :=
  let len := input.length
  let parsed : Except LzoErr (Nat × Nat) :=
    if header ≠ 0 then
      if len < 5 + 3 ∨ byteAt input 0 < 0xf0 ∨ byteAt input 0 > 0xf1 then
        Except.error LzoErr.HeaderError
      else
        let in_len := len - 5
        let out_len := read_out_len input
        if toInt32 out_len < 0 ∨ in_len > out_len + out_len / 64 + 16 + 3 then
          Except.error LzoErr.HeaderError
        else
          Except.ok (in_len, out_len)
    else
      if buflen < 0 then Except.error LzoErr.MissingLength
      else Except.ok (len, buflen.toNat)
  match parsed with
  | Except.error e => PyResult.error e
  | Except.ok (in_len, out_len) =>
    let result_str := input
    let off := if header ≠ 0 then 5 else 0
    let r := L.lzo1x_optimize ((result_str.drop off).take in_len) out_len
    let result_str := result_str.take off ++ store (result_str.drop off) r.data
    if r.err ≠ L.LZO_E_OK ∨ (header ≠ 0 ∧ r.len ≠ out_len) then
      PyResult.error (LzoErr.CorruptData r.err)
    else
      PyResult.ok result_str

/-- The function `adler32` (lines 312-334); `val` defaults to 1.  The length of
`buf` is stored by line 320 as an 8-byte `Py_ssize_t` through the 4-byte
`int len` (line 1 defines `PY_SSIZE_T_CLEAN`), and the store runs over the pointer
`buf` next to it.  On a non-empty buffer the primitive is therefore called on
whatever the overwritten pointer addresses, not on the caller's bytes: `stray` is
that memory, `none` when it cannot be read and the call does not return.  On an
empty buffer the pointer is not used. -/
def adler32 (L : Library) (stray : Option (List Byte)) (buf : List Byte) (val : Nat) :
    Option Nat :=
  if buf.length > 0 then
    match stray with
    | some bytes => some (L.lzo_adler32 (val % 2 ^ 32) bytes)
    | none => none
  else some val

/-- The function `crc32` (lines 348-365); `val` defaults to 0.  Its variables
are those of `adler32`, so on a non-empty buffer the primitive is called on the
memory `stray` behind the overwritten pointer. -/
def crc32 (L : Library) (stray : Option (List Byte)) (buf : List Byte) (val : Nat) :
    Option Nat :=
  if buf.length > 0 then
    match stray with
    | some bytes => some (L.lzo_crc32 (val % 2 ^ 32) bytes)
    | none => none
  else some val

/-- The codec call of `compress_block` (lines 398 and 424-443).  `method` and
`level` are the integers the caller passes; line 398 parses them with the format
`II` into `int` variables, which keeps their low 32 bits.  The entry point is
chosen by the parsed method, and there is none when that method is not supported
by the build. -/
def compress_block_call (L : Library) (input : List Byte) (method level : Int) :
    Option CodecResult :=
  let method := parse_I method
  let level := parse_I level
  if method = M_LZO1X_1 then some (L.lzo1x_1_compress input)
  else if L.USE_LIBLZO = true ∧ method = M_LZO1X_1_15 then some (L.lzo1x_1_15_compress input)
  else if L.USE_LIBLZO = true ∧ method = M_LZO1X_999 then
    some (L.lzo1x_999_compress_level input level)
  else none

/-- The function `compress_block` (lines 378-463); `method` and `level` are the
integers the caller passes (see `compress_block_call`). -/
def compress_block (L : Library) (mem : Nat → Byte) (input : List Byte) (method level : Int) :
    PyResult :=
  let in_len := input.length
  let out_len := in_len + in_len / 64 + 16 + 3
  let result := fresh mem out_len
  match compress_block_call L input method level with
  | none => PyResult.error LzoErr.UnsupportedVariant
  | some r =>
    let out := store result r.data
    if r.err ≠ L.LZO_E_OK ∨ r.len > out_len then
      PyResult.error (LzoErr.CodecError r.err)
    else if r.len ≠ out_len then
      PyResult.ok (resize mem out r.len)
    else
      PyResult.ok out

/-- The function `decompress_block` (lines 465-506).  A negative `dst_len` makes
`PyBytes_FromStringAndSize` return `NULL`, which the function turns into
`PyErr_NoMemory`. -/
def decompress_block (L : Library) (mem : Nat → Byte) (input : List Byte) (dst_len : Int) :
    PyResult :=
  if dst_len < 0 then PyResult.error LzoErr.OutOfMemory
  else
    let result := fresh mem dst_len.toNat
    let r := L.lzo1x_decompress_safe input dst_len.toNat
    let out := store result r.data
    if r.err ≠ L.LZO_E_OK then PyResult.error LzoErr.InternalError
    else if (r.len : Int) ≠ dst_len then PyResult.null
    else PyResult.ok out

/-- The function `py_lzo_adler32` (lines 508-527); `value` defaults to 1.  The
seed is the non-negative integer the caller passes: line 517 parses it with the
format `I` into an `lzo_uint32`, which keeps its low 32 bits, and the result of
the primitive is an `lzo_uint32` as well. -/
def py_lzo_adler32 (L : Library) (input : List Byte) (value : Nat) : Nat :=
  let value := value % 2 ^ 32
  if input.length > 0 then L.lzo_adler32 value input % 2 ^ 32 else value

/-- The function `py_lzo_crc32` (lines 530-549), compiled under `USE_LIBLZO`.  The
seed is the non-negative integer the caller passes as the first argument: line
539 parses it with the format `I` into an `lzo_uint32`, which keeps its low 32
bits, and the result of the primitive is an `lzo_uint32` as well. -/
def py_lzo_crc32 (L : Library) (value : Nat) (input : List Byte) : Nat :=
  let value := value % 2 ^ 32
  if input.length > 0 then L.lzo_crc32 value input % 2 ^ 32 else value

/-- The four bytes that follow `int len` after the argument parser stored the
length for the format `s#`: line 1 defines `PY_SSIZE_T_CLEAN`, so the length is
stored as an 8-byte `Py_ssize_t` and its upper half lands behind `len`. -/
def length_spill (input : List Byte) : Int := toInt32 (input.length / 2 ^ 32)

/-- The call of `decompress` with its argument tuple (line 156, format `s#|ii`):
`header` and `buflen` are the optional arguments, `none` when absent.  An absent
`header` keeps its initial 1.  `buflen` is the variable declared right after
`len` (lines 149-150): the length store runs over its initial -1 before the
optional arguments are stored, so an absent `buflen` is left at the spilled
value. -/
def decompress_call (L : Library) (mem : Nat → Byte) (input : List Byte)
    (header buflen : Option Int) : PyResult :=
  decompress L mem input (header.getD 1) (buflen.getD (length_spill input))

/-! ## Names used by the statements -/

/-- The codec call of `compress` (lines 93-104): the fast compressor at level 1,
the exhaustive one at every other level. -/
def compress_call (L : Library) (input : List Byte) (level : Int) : CodecResult :=
  if level = 1 then L.lzo1x_1_compress input else L.lzo1x_999_compress input

/-- The tag `compress` stores in `out[0]` (lines 96 and 102). -/
def compress_tag (level : Int) : Byte := if level = 1 then 0xf0 else 0xf1

/-- The output bound `compress` computes on line 63. -/
def compress_bound (n : Nat) : Nat := n + n / 16 + 64 + 3

/-- The output bound `compress_block` computes on line 401, which is also the
payload bound of the header check (lines 164 and 248). -/
def block_bound (n : Nat) : Nat := n + n / 64 + 16 + 3

/-- The value of four bytes read as a big-endian unsigned 32-bit integer. -/
def be32 (b1 b2 b3 b4 : Byte) : Nat :=
  b1.val * 2 ^ 24 + b2.val * 2 ^ 16 + b3.val * 2 ^ 8 + b4.val

/-- The output of a codec call as the wrapper takes it: the first `r.len` bytes of
a fresh region of `cap` bytes after the codec stored `r.data` in it.  It is
`r.data` itself when the codec wrote as many bytes as it reports. -/
def codec_output (mem : Nat → Byte) (cap : Nat) (r : CodecResult) : List Byte :=
  (store (fresh mem cap) r.data).take r.len

/-- The payload `compress` gets from its codec call in header mode: the output
region starts 5 bytes into the result buffer and has `out_len` bytes. -/
def compress_payload (L : Library) (mem : Nat → Byte) (input : List Byte) (level : Int) :
    List Byte :=
  codec_output (fun i => mem (i + 5)) (compress_bound input.length) (compress_call L input level)

/-- The length a framed block declares: bytes 1..4 read big-endian. -/
def declared_length (input : List Byte) : Nat :=
  be32 (input.getD 1 0) (input.getD 2 0) (input.getD 3 0) (input.getD 4 0)

/-- The rejection conditions of the header check in the words of the
specification: the buffer is shorter than 8 bytes, or the tag byte is neither
0xf0 nor 0xf1, or the declared length is negative when read as a signed 32-bit
integer, or the payload is longer than the bound allows for the declared length. -/
def header_rejected (input : List Byte) : Prop :=
  input.length < 8 ∨
  (input.getD 0 0 ≠ 0xf0 ∧ input.getD 0 0 ≠ 0xf1) ∨
  toInt32 (declared_length input) < 0 ∨
  input.length - 5 > block_bound (declared_length input)

instance (input : List Byte) : Decidable (header_rejected input) := by
  unfold header_rejected
  infer_instance

/-- A toy LZO library used to run the entry points on concrete inputs: its
compressors copy the source and append `k` zero bytes, its safe decompressor
strips `k` bytes again (and reports `LZO_E_OUTPUT_OVERRUN`, -5, when the rest
does not fit the capacity), its optimizer leaves the source as it is and reports
the capacity it was given, and its checksums return the running value. -/
def padLibrary (k : Nat) : Library :=
  Library.mk 0 true
    (fun src => CodecResult.mk 0 (src.length + k) (src ++ List.replicate k 0))
    (fun src => CodecResult.mk 0 (src.length + k) (src ++ List.replicate k 0))
    (fun src => CodecResult.mk 0 (src.length + k) (src ++ List.replicate k 0))
    (fun src _ => CodecResult.mk 0 (src.length + k) (src ++ List.replicate k 0))
    (fun src cap =>
      if src.length - k ≤ cap then CodecResult.mk 0 (src.length - k) (src.take (src.length - k))
      else CodecResult.mk (-5) cap (src.take cap))
    (fun src cap => CodecResult.mk 0 cap src)
    (fun v _ => v)
    (fun v _ => v)

/-- Unwritten memory that happens to hold 0xaa everywhere. -/
def junk : Nat → Byte := fun _ => 0xaa

/-- The seed `adler32` starts from when the optional argument is absent: the
initial value of `val` on line 317. -/
def adler32_default : Nat := 1

/-- The seed `crc32` starts from when the optional argument is absent: the
initial value of `val` on line 353. -/
def crc32_default : Nat := 0

/-- The seed `py_lzo_adler32` starts from when the optional argument is absent:
the initial value of `value` on line 511.  (`py_lzo_crc32` has no such value: its
format `Is#` makes the seed a required first argument.) -/
def py_lzo_adler32_default : Nat := 1

/-- Modelled from the spec: one byte of the external primitive `lzo_adler32`
(declared by `minilzo.h`, its body is not among the sources), taken to be
standard Adler-32: the first sum grows by the byte, the second by the new first
sum, both modulo 65521. -/
def adler_step (s : Nat × Nat) (x : Byte) : Nat × Nat :=
  ((s.1 + x.val) % 65521, (s.2 + (s.1 + x.val) % 65521) % 65521)

/-- Modelled from the spec: the external primitive `lzo_adler32` (declared by
`minilzo.h`, its body is not among the sources), taken to be standard Adler-32
with the previous checksum as seed: the low 16 bits of the running value are the
first sum, the high 16 bits the second. -/
def std_adler32 (adler : Nat) (buf : List Byte) : Nat :=
  ((buf.foldl adler_step (adler &&& 0xffff, (adler >>> 16) &&& 0xffff)).2 <<< 16) |||
    (buf.foldl adler_step (adler &&& 0xffff, (adler >>> 16) &&& 0xffff)).1

/-- The toy library with standard Adler-32 as its `lzo_adler32`. -/
def adlerLibrary : Library :=
  Library.mk 0 true (padLibrary 3).lzo1x_1_compress (padLibrary 3).lzo1x_999_compress
    (padLibrary 3).lzo1x_1_15_compress (padLibrary 3).lzo1x_999_compress_level
    (padLibrary 3).lzo1x_decompress_safe (padLibrary 3).lzo1x_optimize
    std_adler32 (fun v _ => v)

/-- The sum of the bytes of a buffer. -/
def byte_sum : List Byte → Nat
  | [] => 0
  | x :: xs => x.val + byte_sum xs

/-- The position-weighted sum of the bytes of a buffer: the first byte counts as
many times as the buffer is long, the last byte once. -/
def weighted_sum : List Byte → Nat
  | [] => 0
  | x :: xs => (xs.length + 1) * x.val + weighted_sum xs

/-- The two byte buffers `optimize` works with: the buffer of the caller's
argument and the bytes object `result_str` it allocates. -/
structure OptimizeHeap where
  arg : List Byte
  result_str : List Byte
  deriving DecidableEq, Repr

/-- The buffer the pointer `in` of `optimize` points into. -/
inductive InPtr where
  | arg
  | result_str
  deriving DecidableEq, Repr

/-- The bytes behind a pointer. -/
def OptimizeHeap.load (h : OptimizeHeap) (p : InPtr) : List Byte :=
  match p with
  | InPtr.arg => h.arg
  | InPtr.result_str => h.result_str

/-- The heap after a callee wrote `data` from offset `off` of the buffer behind
the pointer `p`. -/
def OptimizeHeap.storeAt (h : OptimizeHeap) (p : InPtr) (off : Nat) (data : List Byte) :
    OptimizeHeap :=
  match p with
  | InPtr.arg => OptimizeHeap.mk (h.arg.take off ++ store (h.arg.drop off) data) h.result_str
  | InPtr.result_str =>
    OptimizeHeap.mk h.arg (h.result_str.take off ++ store (h.result_str.drop off) data)

/-- The function `optimize` (lines 225-298) once more, with the buffers it touches
made explicit: `in` points into the caller's buffer after argument parsing, line
259 copies that buffer into `result_str`, line 274 redirects `in` to the copy, and
the optimizer writes through `in + 5` or `in`.  Returned are the result and the
caller's buffer as it is after the call. -/
def optimize_buffers (L : Library) (input : List Byte) (header buflen : Int) :
    PyResult × List Byte :=
  let heap0 := OptimizeHeap.mk input []
  let in0 := InPtr.arg
  let len := (heap0.load in0).length
  let parsed : Except LzoErr (Nat × Nat) :=
    if header ≠ 0 then
      if len < 5 + 3 ∨ byteAt (heap0.load in0) 0 < 0xf0 ∨ byteAt (heap0.load in0) 0 > 0xf1 then
        Except.error LzoErr.HeaderError
      else
        let in_len := len - 5
        let out_len := read_out_len (heap0.load in0)
        if toInt32 out_len < 0 ∨ in_len > out_len + out_len / 64 + 16 + 3 then
          Except.error LzoErr.HeaderError
        else
          Except.ok (in_len, out_len)
    else
      if buflen < 0 then Except.error LzoErr.MissingLength
      else Except.ok (len, buflen.toNat)
  match parsed with
  | Except.error e => (PyResult.error e, heap0.arg)
  | Except.ok (in_len, out_len) =>
    let heap1 := OptimizeHeap.mk heap0.arg ((heap0.load in0).take len)
    let in1 := InPtr.result_str
    let off := if header ≠ 0 then 5 else 0
    let r := L.lzo1x_optimize (((heap1.load in1).drop off).take in_len) out_len
    let heap2 := heap1.storeAt in1 off r.data
    if r.err ≠ L.LZO_E_OK ∨ (header ≠ 0 ∧ r.len ≠ out_len) then
      (PyResult.error (LzoErr.CorruptData r.err), heap2.arg)
    else
      (PyResult.ok heap2.result_str, heap2.arg)

/-! ## Buffer lemmas -/

theorem fresh_length (mem : Nat → Byte) (n : Nat) : (fresh mem n).length = n := by
  simp [fresh]

theorem store_length (buf data : List Byte) : (store buf data).length = buf.length := by
  simp [store]; omega

theorem resize_length (mem : Nat → Byte) (buf : List Byte) (n : Nat) :
    (resize mem buf n).length = n := by
  simp [resize, fresh]; omega

theorem resize_of_le (mem : Nat → Byte) (buf : List Byte) (n : Nat) (h : n ≤ buf.length) :
    resize mem buf n = buf.take n := by
  have h0 : n - buf.length = 0 := by omega
  simp [resize, fresh, h0]

theorem store_of_length_eq (buf data : List Byte) (h : data.length = buf.length) :
    store buf data = data := by
  unfold store
  rw [← h]
  simp
  omega

theorem store_take_of_le (buf data : List Byte) (k : Nat) (hk : k ≤ data.length)
    (hb : k ≤ buf.length) : (store buf data).take k = data.take k := by
  have h1 : min k buf.length = k := by omega
  have h2 : k - min buf.length data.length = 0 := by omega
  simp [store, List.take_append_eq_append_take, List.take_take, h1, h2]

theorem codec_output_length (mem : Nat → Byte) (cap : Nat) (r : CodecResult)
    (h : r.len ≤ cap) : (codec_output mem cap r).length = r.len := by
  unfold codec_output
  rw [List.length_take, store_length, fresh_length]
  omega

theorem codec_output_exact (mem : Nat → Byte) (cap : Nat) (r : CodecResult)
    (hd : r.data.length = r.len) (h : r.len ≤ cap) : codec_output mem cap r = r.data := by
  unfold codec_output
  rw [store_take_of_le _ _ _ (by omega) (by rw [fresh_length]; omega), ← hd, List.take_length]

theorem codec_output_full (mem : Nat → Byte) (cap : Nat) (r : CodecResult)
    (h : r.len = cap) : codec_output mem cap r = store (fresh mem cap) r.data := by
  unfold codec_output
  rw [List.take_of_length_le]
  rw [store_length, fresh_length]
  omega

theorem fresh_succ (mem : Nat → Byte) (n : Nat) :
    fresh mem (n + 1) = mem 0 :: fresh (fun i => mem (i + 1)) n := by
  unfold fresh
  rw [List.range_succ_eq_map, List.map_cons, List.map_map]
  rfl

theorem fresh_five_add (mem : Nat → Byte) (n : Nat) :
    fresh mem (5 + n) =
      mem 0 :: mem 1 :: mem 2 :: mem 3 :: mem 4 :: fresh (fun i => mem (i + 5)) n := by
  rw [show 5 + n = n + 1 + 1 + 1 + 1 + 1 by omega]
  simp [fresh_succ, Nat.add_assoc]

/-! ## What `compress` returns -/

theorem compress_fails (L : Library) (mem : Nat → Byte) (input : List Byte) (level header : Int)
    (h : (compress_call L input level).err ≠ L.LZO_E_OK ∨
      (compress_call L input level).len > compress_bound input.length) :
    compress L mem input level header =
      PyResult.error (LzoErr.CodecError (compress_call L input level).err) := by
  unfold compress_call compress_bound at h
  simp only [compress]
  rw [if_pos h]
  rfl

theorem compress_header_eq (L : Library) (mem : Nat → Byte) (input : List Byte)
    (level header : Int) (hh : header ≠ 0)
    (hok : (compress_call L input level).err = L.LZO_E_OK)
    (hlen : (compress_call L input level).len ≤ compress_bound input.length) :
    compress L mem input level header =
      PyResult.ok (compress_tag level ::
        toByte ((input.length >>> 24) &&& 0xff) ::
        toByte ((input.length >>> 16) &&& 0xff) ::
        toByte ((input.length >>> 8) &&& 0xff) ::
        toByte ((input.length >>> 0) &&& 0xff) ::
        compress_payload L mem input level) := by
  unfold compress_payload codec_output
  unfold compress_call compress_bound at *
  have hc : ¬ ((if level = 1 then L.lzo1x_1_compress input
        else L.lzo1x_999_compress input).err ≠ L.LZO_E_OK ∨
      (if level = 1 then L.lzo1x_1_compress input else L.lzo1x_999_compress input).len >
        input.length + input.length / 16 + 64 + 3) := by
    rw [not_or]; exact ⟨fun h => h hok, by omega⟩
  simp only [compress]
  rw [if_neg hc]
  simp only [if_pos hh, fresh_five_add]
  by_cases hl : level = 1
  · simp only [if_pos hl, compress_tag] at *
    by_cases he : (L.lzo1x_1_compress input).len = input.length + input.length / 16 + 64 + 3
    · simp [he, store_length, fresh_length, List.take_of_length_le]
    · rw [if_pos he, resize_of_le]
      · simp
      · simp [store_length, fresh_length]; omega
  · simp only [if_neg hl, compress_tag] at *
    by_cases he : (L.lzo1x_999_compress input).len = input.length + input.length / 16 + 64 + 3
    · simp [he, store_length, fresh_length, List.take_of_length_le]
    · rw [if_pos he, resize_of_le]
      · simp
      · simp [store_length, fresh_length]; omega

theorem compress_headerless_eq (L : Library) (mem : Nat → Byte) (input : List Byte)
    (level : Int)
    (hok : (compress_call L input level).err = L.LZO_E_OK)
    (hlen : (compress_call L input level).len ≤ compress_bound input.length) :
    compress L mem input level 0 =
      PyResult.ok
        (if (compress_call L input level).len = compress_bound input.length then
          store (fresh mem (5 + compress_bound input.length)) (compress_call L input level).data
        else
          (store (fresh mem (5 + compress_bound input.length))
            (compress_call L input level).data).take (compress_call L input level).len) := by
  unfold compress_call compress_bound at *
  have hc : ¬ ((if level = 1 then L.lzo1x_1_compress input
        else L.lzo1x_999_compress input).err ≠ L.LZO_E_OK ∨
      (if level = 1 then L.lzo1x_1_compress input else L.lzo1x_999_compress input).len >
        input.length + input.length / 16 + 64 + 3) := by
    rw [not_or]; exact ⟨fun h => h hok, by omega⟩
  simp only [compress]
  rw [if_neg hc]
  by_cases he : (if level = 1 then L.lzo1x_1_compress input
      else L.lzo1x_999_compress input).len = input.length + input.length / 16 + 64 + 3
  · simp [he]
  · rw [if_neg he, if_pos he, resize_of_le]
    · simp
    · simp [store_length, fresh_length]; omega

/-! ## The length field -/

theorem be32_eq_or (b1 b2 b3 b4 : Nat) (h2 : b2 < 256) (h3 : b3 < 256) (h4 : b4 < 256) :
    (b1 <<< 24) ||| (b2 <<< 16) ||| (b3 <<< 8) ||| b4 =
      b1 * 2 ^ 24 + b2 * 2 ^ 16 + b3 * 2 ^ 8 + b4 := by
  simp only [Nat.shiftLeft_eq]
  have e1 : b1 * 2 ^ 24 ||| b2 * 2 ^ 16 = 2 ^ 24 * b1 + b2 * 2 ^ 16 := by
    rw [Nat.mul_add_lt_is_or (by omega) b1, Nat.mul_comm]
  have e2 : (2 ^ 24 * b1 + b2 * 2 ^ 16) ||| b3 * 2 ^ 8 =
      2 ^ 16 * (2 ^ 8 * b1 + b2) + b3 * 2 ^ 8 := by
    rw [Nat.mul_add_lt_is_or (by omega) (2 ^ 8 * b1 + b2)]
    congr 1
    omega
  have e3 : (2 ^ 16 * (2 ^ 8 * b1 + b2) + b3 * 2 ^ 8) ||| b4 =
      2 ^ 8 * (2 ^ 8 * (2 ^ 8 * b1 + b2) + b3) + b4 := by
    rw [Nat.mul_add_lt_is_or (by omega) (2 ^ 8 * (2 ^ 8 * b1 + b2) + b3)]
    congr 1
    omega
  rw [e1, e2, e3]
  omega

theorem read_out_len_eq (buf : List Byte) :
    read_out_len buf = be32 (buf.getD 1 0) (buf.getD 2 0) (buf.getD 3 0) (buf.getD 4 0) := by
  unfold read_out_len be32 byteAt
  exact be32_eq_or _ _ _ _ (Fin.isLt _) (Fin.isLt _) (Fin.isLt _)

theorem be32_lt (b1 b2 b3 b4 : Byte) : be32 b1 b2 b3 b4 < 2 ^ 32 := by
  have h1 := b1.isLt
  have h2 := b2.isLt
  have h3 := b3.isLt
  have h4 := b4.isLt
  unfold be32
  omega

theorem toInt32_neg_iff (v : Nat) (h : v < 2 ^ 32) : toInt32 v < 0 ↔ 2 ^ 31 ≤ v := by
  unfold toInt32
  have hm : v % 2 ^ 32 = v := Nat.mod_eq_of_lt h
  rw [hm]
  split <;> omega

theorem be32_ge_iff (b1 b2 b3 b4 : Byte) : 2 ^ 31 ≤ be32 b1 b2 b3 b4 ↔ 0x80 ≤ b1.val := by
  have h2 := b2.isLt
  have h3 := b3.isLt
  have h4 := b4.isLt
  unfold be32
  omega

theorem be32_length (n : Nat) (h : n < 2 ^ 32) :
    be32 (toByte ((n >>> 24) &&& 0xff)) (toByte ((n >>> 16) &&& 0xff))
      (toByte ((n >>> 8) &&& 0xff)) (toByte ((n >>> 0) &&& 0xff)) = n := by
  have ha : ∀ x : Nat, x &&& 0xff = x % 256 := fun x => Nat.and_pow_two_sub_one_eq_mod x 8
  simp only [be32, toByte, ha, Nat.shiftRight_eq_div_pow]
  omega

/-! ## The header check -/

theorem tag_bad_iff (b : Byte) : (b ≠ 0xf0 ∧ b ≠ 0xf1) ↔ (b.val < 0xf0 ∨ b.val > 0xf1) := by
  have hb := b.isLt
  constructor
  · rintro ⟨h0, h1⟩
    have h0v : b.val ≠ 0xf0 := fun h => h0 (Fin.ext h)
    have h1v : b.val ≠ 0xf1 := fun h => h1 (Fin.ext h)
    omega
  · intro h
    constructor
    · intro e; rw [e] at h; revert h; decide
    · intro e; rw [e] at h; revert h; decide

theorem header_check_iff (input : List Byte) :
    ((input.length < 5 + 3 ∨ byteAt input 0 < 0xf0 ∨ byteAt input 0 > 0xf1) ∨
      (toInt32 (read_out_len input) < 0 ∨
        input.length - 5 > read_out_len input + read_out_len input / 64 + 16 + 3)) ↔
    header_rejected input := by
  unfold header_rejected block_bound
  rw [read_out_len_eq, tag_bad_iff]
  unfold declared_length byteAt
  tauto

theorem decompress_header_rejected (L : Library) (mem : Nat → Byte) (input : List Byte)
    (header buflen : Int) (hh : header ≠ 0) (hr : header_rejected input) :
    decompress L mem input header buflen = PyResult.error LzoErr.HeaderError := by
  rw [← header_check_iff] at hr
  simp only [decompress, if_pos hh]
  by_cases h1 : input.length < 5 + 3 ∨ byteAt input 0 < 0xf0 ∨ byteAt input 0 > 0xf1
  · rw [if_pos h1]
  · rw [if_neg h1]
    have h2 := hr.resolve_left h1
    rw [if_pos h2]

theorem decompress_header_accepted (L : Library) (mem : Nat → Byte) (input : List Byte)
    (header buflen : Int) (hh : header ≠ 0) (hr : ¬ header_rejected input) :
    decompress L mem input header buflen =
      if (L.lzo1x_decompress_safe (input.drop 5) (declared_length input)).err ≠ L.LZO_E_OK ∨
          (L.lzo1x_decompress_safe (input.drop 5) (declared_length input)).len ≠
            declared_length input then
        PyResult.error (LzoErr.CorruptData
          (L.lzo1x_decompress_safe (input.drop 5) (declared_length input)).err)
      else
        PyResult.ok (store (fresh mem (declared_length input))
          (L.lzo1x_decompress_safe (input.drop 5) (declared_length input)).data) := by
  rw [← header_check_iff, not_or] at hr
  have hd : read_out_len input = declared_length input := by
    rw [read_out_len_eq, declared_length]
  simp only [decompress, if_pos hh, if_neg hr.1, if_neg hr.2]
  simp only [hd]
  by_cases hc : (L.lzo1x_decompress_safe (input.drop 5) (declared_length input)).err ≠
      L.LZO_E_OK ∨
      (L.lzo1x_decompress_safe (input.drop 5) (declared_length input)).len ≠
        declared_length input
  · rw [if_pos hc, if_pos]
    rcases hc with h | h
    · exact Or.inl h
    · exact Or.inr ⟨hh, h⟩
  · rw [if_neg hc, if_neg, if_neg]
    · exact fun h => hh h.1
    · rintro (h | h)
      · exact hc (Or.inl h)
      · exact hc (Or.inr h.2)

theorem decompress_headerless_missing (L : Library) (mem : Nat → Byte) (input : List Byte)
    (buflen : Int) (hb : buflen < 0) :
    decompress L mem input 0 buflen = PyResult.error LzoErr.MissingLength := by
  simp [decompress, hb]

theorem decompress_headerless_eq (L : Library) (mem : Nat → Byte) (input : List Byte)
    (buflen : Int) (hb : 0 ≤ buflen) :
    decompress L mem input 0 buflen =
      if (L.lzo1x_decompress_safe input buflen.toNat).err ≠ L.LZO_E_OK then
        PyResult.error (LzoErr.CorruptData (L.lzo1x_decompress_safe input buflen.toNat).err)
      else if (L.lzo1x_decompress_safe input buflen.toNat).len ≠ buflen.toNat then
        PyResult.ok (resize mem
          (store (fresh mem buflen.toNat) (L.lzo1x_decompress_safe input buflen.toNat).data)
          (L.lzo1x_decompress_safe input buflen.toNat).len)
      else
        PyResult.ok
          (store (fresh mem buflen.toNat) (L.lzo1x_decompress_safe input buflen.toNat).data) := by
  have hb2 : ¬ buflen < 0 := by omega
  simp [decompress, hb2]

theorem optimize_header_rejected (L : Library) (input : List Byte)
    (header buflen : Int) (hh : header ≠ 0) (hr : header_rejected input) :
    optimize L input header buflen = PyResult.error LzoErr.HeaderError := by
  rw [← header_check_iff] at hr
  simp only [optimize, if_pos hh]
  by_cases h1 : input.length < 5 + 3 ∨ byteAt input 0 < 0xf0 ∨ byteAt input 0 > 0xf1
  · rw [if_pos h1]
  · rw [if_neg h1]
    have h2 := hr.resolve_left h1
    rw [if_pos h2]

theorem optimize_header_accepted (L : Library) (input : List Byte)
    (header buflen : Int) (hh : header ≠ 0) (hr : ¬ header_rejected input) :
    optimize L input header buflen =
      if (L.lzo1x_optimize ((input.drop 5).take (input.length - 5))
            (declared_length input)).err ≠ L.LZO_E_OK ∨
          (L.lzo1x_optimize ((input.drop 5).take (input.length - 5))
            (declared_length input)).len ≠ declared_length input then
        PyResult.error (LzoErr.CorruptData
          (L.lzo1x_optimize ((input.drop 5).take (input.length - 5))
            (declared_length input)).err)
      else
        PyResult.ok (input.take 5 ++ store (input.drop 5)
          (L.lzo1x_optimize ((input.drop 5).take (input.length - 5))
            (declared_length input)).data) := by
  rw [← header_check_iff, not_or] at hr
  have hd : read_out_len input = declared_length input := by
    rw [read_out_len_eq, declared_length]
  simp only [optimize, if_pos hh, if_neg hr.1, if_neg hr.2]
  simp only [hd]
  by_cases hc : (L.lzo1x_optimize ((input.drop 5).take (input.length - 5))
        (declared_length input)).err ≠ L.LZO_E_OK ∨
      (L.lzo1x_optimize ((input.drop 5).take (input.length - 5))
        (declared_length input)).len ≠ declared_length input
  · rw [if_pos hc, if_pos]
    rcases hc with h | h
    · exact Or.inl h
    · exact Or.inr ⟨hh, h⟩
  · rw [if_neg hc, if_neg]
    rintro (h | h)
    · exact hc (Or.inl h)
    · exact hc (Or.inr h.2)

theorem optimize_headerless_missing (L : Library) (input : List Byte)
    (buflen : Int) (hb : buflen < 0) :
    optimize L input 0 buflen = PyResult.error LzoErr.MissingLength := by
  simp [optimize, hb]

theorem optimize_headerless_eq (L : Library) (input : List Byte)
    (buflen : Int) (hb : 0 ≤ buflen) :
    optimize L input 0 buflen =
      if (L.lzo1x_optimize (input.take input.length) buflen.toNat).err ≠ L.LZO_E_OK then
        PyResult.error (LzoErr.CorruptData
          (L.lzo1x_optimize (input.take input.length) buflen.toNat).err)
      else
        PyResult.ok (store input (L.lzo1x_optimize (input.take input.length) buflen.toNat).data) := by
  have hb2 : ¬ buflen < 0 := by omega
  simp [optimize, hb2]

/-! ## Failure and success of the two compressors -/

theorem compress_call_ok_of_ok (L : Library) (mem : Nat → Byte) (input : List Byte)
    (level header : Int) (blk : List Byte)
    (h : compress L mem input level header = PyResult.ok blk) :
    (compress_call L input level).err = L.LZO_E_OK ∧
      (compress_call L input level).len ≤ compress_bound input.length := by
  by_cases hc : (compress_call L input level).err ≠ L.LZO_E_OK ∨
      (compress_call L input level).len > compress_bound input.length
  · rw [compress_fails L mem input level header hc] at h
    cases h
  · rw [not_or] at hc
    exact ⟨not_not.mp hc.1, by omega⟩

theorem compress_succeeds (L : Library) (mem : Nat → Byte) (input : List Byte)
    (level header : Int)
    (hok : (compress_call L input level).err = L.LZO_E_OK)
    (hlen : (compress_call L input level).len ≤ compress_bound input.length) :
    ∃ blk, compress L mem input level header = PyResult.ok blk := by
  by_cases hh : header = 0
  · subst hh
    exact ⟨_, compress_headerless_eq L mem input level hok hlen⟩
  · exact ⟨_, compress_header_eq L mem input level header hh hok hlen⟩

theorem parse_I_eq_iff (v k : Int) (hk0 : 0 ≤ k) (hk : k < 2 ^ 31) :
    parse_I v = k ↔ v % 2 ^ 32 = k := by
  have h0 : 0 ≤ v % 2 ^ 32 := Int.emod_nonneg v (by decide)
  have h1 : v % 2 ^ 32 < 2 ^ 32 := Int.emod_lt_of_pos v (by decide)
  have hn : (((v % 2 ^ 32).toNat : Nat) : Int) = v % 2 ^ 32 := Int.toNat_of_nonneg h0
  have hlt : (v % 2 ^ 32).toNat < 2 ^ 32 := by omega
  unfold parse_I toInt32
  rw [Nat.mod_eq_of_lt hlt]
  split <;> omega

theorem parse_I_of_range (v : Int) (h0 : -2 ^ 31 ≤ v) (h1 : v < 2 ^ 31) : parse_I v = v := by
  have e0 : 0 ≤ v % 2 ^ 32 := Int.emod_nonneg v (by decide)
  have e1 : v % 2 ^ 32 < 2 ^ 32 := Int.emod_lt_of_pos v (by decide)
  have hn : (((v % 2 ^ 32).toNat : Nat) : Int) = v % 2 ^ 32 := Int.toNat_of_nonneg e0
  have hlt : (v % 2 ^ 32).toNat < 2 ^ 32 := by omega
  unfold parse_I toInt32
  rw [Nat.mod_eq_of_lt hlt]
  split <;> omega

theorem compress_block_supported_iff (L : Library) (input : List Byte) (method level : Int) :
    (∃ r, compress_block_call L input method level = some r) ↔
      (parse_I method = M_LZO1X_1 ∨
        (L.USE_LIBLZO = true ∧
          (parse_I method = M_LZO1X_1_15 ∨ parse_I method = M_LZO1X_999))) := by
  have key : compress_block_call L input method level =
      if parse_I method = M_LZO1X_1 then some (L.lzo1x_1_compress input)
      else if L.USE_LIBLZO = true ∧ parse_I method = M_LZO1X_1_15 then
        some (L.lzo1x_1_15_compress input)
      else if L.USE_LIBLZO = true ∧ parse_I method = M_LZO1X_999 then
        some (L.lzo1x_999_compress_level input (parse_I level))
      else none := rfl
  rw [key]
  by_cases h1 : parse_I method = M_LZO1X_1
  · rw [if_pos h1]
    exact ⟨fun _ => Or.inl h1, fun _ => ⟨_, rfl⟩⟩
  · rw [if_neg h1]
    by_cases h2 : L.USE_LIBLZO = true ∧ parse_I method = M_LZO1X_1_15
    · rw [if_pos h2]
      exact ⟨fun _ => Or.inr ⟨h2.1, Or.inl h2.2⟩, fun _ => ⟨_, rfl⟩⟩
    · rw [if_neg h2]
      by_cases h3 : L.USE_LIBLZO = true ∧ parse_I method = M_LZO1X_999
      · rw [if_pos h3]
        exact ⟨fun _ => Or.inr ⟨h3.1, Or.inr h3.2⟩, fun _ => ⟨_, rfl⟩⟩
      · rw [if_neg h3]
        constructor
        · rintro ⟨r, hr⟩
          cases hr
        · rintro (h | ⟨hu, h | h⟩)
          · exact absurd h h1
          · exact absurd ⟨hu, h⟩ h2
          · exact absurd ⟨hu, h⟩ h3

theorem compress_block_supported_of_tag (L : Library) (input : List Byte) (method level : Int)
    (hs : method = M_LZO1X_1 ∨
      (L.USE_LIBLZO = true ∧ (method = M_LZO1X_1_15 ∨ method = M_LZO1X_999))) :
    ∃ r, compress_block_call L input method level = some r := by
  rw [compress_block_supported_iff]
  rcases hs with h | ⟨hu, h | h⟩
  · subst h
    exact Or.inl (by decide)
  · subst h
    exact Or.inr ⟨hu, Or.inl (by decide)⟩
  · subst h
    exact Or.inr ⟨hu, Or.inr (by decide)⟩

theorem compress_block_eq (L : Library) (mem : Nat → Byte) (input : List Byte)
    (method level : Int) (r : CodecResult)
    (hcall : compress_block_call L input method level = some r) :
    compress_block L mem input method level =
      if r.err ≠ L.LZO_E_OK ∨ r.len > block_bound input.length then
        PyResult.error (LzoErr.CodecError r.err)
      else if r.len ≠ block_bound input.length then
        PyResult.ok (resize mem (store (fresh mem (block_bound input.length)) r.data) r.len)
      else
        PyResult.ok (store (fresh mem (block_bound input.length)) r.data) := by
  simp only [compress_block, hcall, block_bound]

theorem compress_block_ok_eq (L : Library) (mem : Nat → Byte) (input : List Byte)
    (method level : Int) (r : CodecResult)
    (hcall : compress_block_call L input method level = some r)
    (hok : r.err = L.LZO_E_OK) (hlen : r.len ≤ block_bound input.length) :
    compress_block L mem input method level =
      PyResult.ok (codec_output mem (block_bound input.length) r) := by
  rw [compress_block_eq L mem input method level r hcall]
  have hc : ¬ (r.err ≠ L.LZO_E_OK ∨ r.len > block_bound input.length) := by
    rw [not_or]; exact ⟨not_not.mpr hok, by omega⟩
  rw [if_neg hc]
  by_cases he : r.len = block_bound input.length
  · rw [if_neg (not_not.mpr he), codec_output_full _ _ _ he]
  · rw [if_pos he, resize_of_le _ _ _ (by rw [store_length, fresh_length]; omega)]
    rfl

theorem header_rejected_zero_tag (rest : List Byte) : header_rejected (0 :: rest) := by
  unfold header_rejected
  right; left
  constructor <;> simp [List.getD]

/-! ## Header validation -/

/-- C2: in header mode `decompress` and `optimize` fail with `HeaderError` exactly
when the buffer is shorter than 8 bytes, or byte 0 is neither 0xf0 nor 0xf1, or
the big-endian value of bytes 1..4 is negative as a signed 32-bit integer (which
is the same as byte 1 being at least 0x80), or the payload length `len - 5`
exceeds `L + L/64 + 16 + 3` for the declared length `L`; in particular every
buffer whose byte 0 is 0x00 gets `HeaderError`, and an input meeting one of the
conditions gets that error and no other. -/
theorem header_validation (L : Library) (mem : Nat → Byte) (input : List Byte)
    (header buflen : Int) (hh : header ≠ 0) :
    (decompress L mem input header buflen = PyResult.error LzoErr.HeaderError ↔
      (input.length < 8 ∨ (input.getD 0 0 ≠ 0xf0 ∧ input.getD 0 0 ≠ 0xf1) ∨
        toInt32 (declared_length input) < 0 ∨
        input.length - 5 >
          declared_length input + declared_length input / 64 + 16 + 3)) ∧
    (optimize L input header buflen = PyResult.error LzoErr.HeaderError ↔
      (input.length < 8 ∨ (input.getD 0 0 ≠ 0xf0 ∧ input.getD 0 0 ≠ 0xf1) ∨
        toInt32 (declared_length input) < 0 ∨
        input.length - 5 >
          declared_length input + declared_length input / 64 + 16 + 3)) ∧
    (toInt32 (declared_length input) < 0 ↔ 0x80 ≤ (input.getD 1 0).val) ∧
    (∀ rest : List Byte,
      decompress L mem (0 :: rest) header buflen = PyResult.error LzoErr.HeaderError ∧
      optimize L (0 :: rest) header buflen = PyResult.error LzoErr.HeaderError) := by
  refine ⟨?_, ?_, ?_, ?_⟩
  · show _ ↔ header_rejected input
    constructor
    · intro h
      by_contra hr
      rw [decompress_header_accepted L mem input header buflen hh hr] at h
      split at h <;> cases h
    · exact decompress_header_rejected L mem input header buflen hh
  · show _ ↔ header_rejected input
    constructor
    · intro h
      by_contra hr
      rw [optimize_header_accepted L input header buflen hh hr] at h
      split at h <;> cases h
    · exact optimize_header_rejected L input header buflen hh
  · unfold declared_length
    rw [toInt32_neg_iff _ (be32_lt _ _ _ _), be32_ge_iff]
  · intro rest
    exact ⟨decompress_header_rejected L mem _ header buflen hh (header_rejected_zero_tag rest),
      optimize_header_rejected L _ header buflen hh (header_rejected_zero_tag rest)⟩

/-- C2, at a concrete input: the seven-byte buffer `f0 00 0f 42 40 00 00` (tag
0xf0, declared length 1000000) is rejected in header mode by both entry points. -/
theorem header_validation_witness :
    (1 : Int) ≠ 0 ∧
    decompress (padLibrary 3) junk [0xf0, 0x00, 0x0f, 0x42, 0x40, 0x00, 0x00] 1 (-1) =
      PyResult.error LzoErr.HeaderError ∧
    optimize (padLibrary 3) [0xf0, 0x00, 0x0f, 0x42, 0x40, 0x00, 0x00] 1 (-1) =
      PyResult.error LzoErr.HeaderError :=
  ⟨by decide,
    (header_validation (padLibrary 3) junk [0xf0, 0x00, 0x0f, 0x42, 0x40, 0x00, 0x00] 1 (-1)
      (by decide)).1.2 (Or.inl (by decide)),
    (header_validation (padLibrary 3) junk [0xf0, 0x00, 0x0f, 0x42, 0x40, 0x00, 0x00] 1 (-1)
      (by decide)).2.1.2 (Or.inl (by decide))⟩

/-! ## The output of `compress` -/

theorem compress_length_le (L : Library) (mem : Nat → Byte) (input : List Byte)
    (level header : Int) (blk : List Byte)
    (h : compress L mem input level header = PyResult.ok blk)
    (hne : header ≠ 0 ∨ (compress_call L input level).len ≠ compress_bound input.length) :
    blk.length ≤ compress_bound input.length + (if header ≠ 0 then 5 else 0) := by
  obtain ⟨hok, hlen⟩ := compress_call_ok_of_ok L mem input level header blk h
  by_cases hh : header = 0
  · subst hh
    have hne2 : (compress_call L input level).len ≠ compress_bound input.length := by
      rcases hne with h0 | h0
      · exact absurd rfl h0
      · exact h0
    rw [compress_headerless_eq L mem input level hok hlen, if_neg hne2] at h
    cases h
    simp only [List.length_take]
    simp
    omega
  · rw [compress_header_eq L mem input level header hh hok hlen] at h
    cases h
    have hp := codec_output_length (fun i => mem (i + 5)) _ _ hlen
    unfold compress_payload
    simp only [List.length_cons, hp, if_pos hh]
    omega

/-- C3 (the code departs from it): with header mode off and a compressor that
fills the whole bound, `compress` skips the resize and returns the buffer as it
was allocated, five bytes longer than `len + len/16 + 64 + 3`.  Here the input is
empty, the bound is 67 and the compressor reports 67 bytes; the block returned
has 72 bytes, the last five of them never written. -/
theorem compress_headerless_keeps_allocation :
    compress_bound ([] : List Byte).length = 67 ∧
    (compress_call (padLibrary 67) [] 1).err = (padLibrary 67).LZO_E_OK ∧
    (compress_call (padLibrary 67) [] 1).len = 67 ∧
    compress (padLibrary 67) junk [] 1 0 =
      PyResult.ok (List.replicate 67 0 ++ List.replicate 5 0xaa) ∧
    (List.replicate 67 (0 : Byte) ++ List.replicate 5 0xaa).length = 72 := by
  decide

/-- C4: when `compress` succeeds in header mode on an input shorter than 2^31
bytes, the block starts with 0xf0 at level 1 and 0xf1 at every other level, the
next four bytes are the input length as a big-endian unsigned 32-bit integer,
and the bytes from position 5 on are what the codec left in its output region,
cut at the length it reported (the codec's data itself when it wrote as many
bytes as it reported). -/
theorem compress_writes_header (L : Library) (mem : Nat → Byte) (input : List Byte)
    (level header : Int) (blk : List Byte)
    (hlen : input.length < 2 ^ 31) (hh : header ≠ 0)
    (hok : compress L mem input level header = PyResult.ok blk) :
    ∃ b1 b2 b3 b4 payload,
      blk = (if level = 1 then (0xf0 : Byte) else 0xf1) :: b1 :: b2 :: b3 :: b4 :: payload ∧
      be32 b1 b2 b3 b4 = input.length ∧
      payload = codec_output (fun i => mem (i + 5))
        (input.length + input.length / 16 + 64 + 3) (compress_call L input level) ∧
      payload.length = (compress_call L input level).len ∧
      ((compress_call L input level).data.length = (compress_call L input level).len →
        payload = (compress_call L input level).data) := by
  obtain ⟨hcok, hclen⟩ := compress_call_ok_of_ok L mem input level header blk hok
  rw [compress_header_eq L mem input level header hh hcok hclen] at hok
  cases hok
  refine ⟨_, _, _, _, _, rfl, be32_length input.length (by omega), rfl,
    codec_output_length _ _ _ hclen, fun hd => codec_output_exact _ _ _ hd hclen⟩

/-- C4, at a concrete input: ten bytes `a` compressed at level 1 in header mode
give a block that starts with the header `f0 00 00 00 0a`, and the four length
bytes of that block read back as 10. -/
theorem compress_writes_header_witness :
    (List.replicate 10 (0x61 : Byte)).length < 2 ^ 31 ∧ (1 : Int) ≠ 0 ∧
    compress (padLibrary 3) junk (List.replicate 10 0x61) 1 1 =
      PyResult.ok (0xf0 :: 0x00 :: 0x00 :: 0x00 :: 0x0a ::
        (List.replicate 10 0x61 ++ [0, 0, 0])) ∧
    ∃ b1 b2 b3 b4 payload,
      (0xf0 :: 0x00 :: 0x00 :: 0x00 :: 0x0a :: (List.replicate 10 0x61 ++ [0, 0, 0]) :
          List Byte) =
        (if (1 : Int) = 1 then (0xf0 : Byte) else 0xf1) :: b1 :: b2 :: b3 :: b4 :: payload ∧
      be32 b1 b2 b3 b4 = 10 ∧
      payload = codec_output (fun i => junk (i + 5)) (10 + 10 / 16 + 64 + 3)
        (compress_call (padLibrary 3) (List.replicate 10 0x61) 1) ∧
      payload.length = (compress_call (padLibrary 3) (List.replicate 10 0x61) 1).len ∧
      ((compress_call (padLibrary 3) (List.replicate 10 0x61) 1).data.length =
          (compress_call (padLibrary 3) (List.replicate 10 0x61) 1).len →
        payload = (compress_call (padLibrary 3) (List.replicate 10 0x61) 1).data) :=
  ⟨by decide, by decide, by decide,
    compress_writes_header (padLibrary 3) junk (List.replicate 10 0x61) 1 1
      (0xf0 :: 0x00 :: 0x00 :: 0x00 :: 0x0a :: (List.replicate 10 0x61 ++ [0, 0, 0]))
      (by decide) (by decide) (by decide)⟩

/-! ## When the compressors fail -/

/-- C6: `compress` fails with `CodecError` exactly when its codec call reports a
status other than `LZO_E_OK` or a length above `len + len/16 + 64 + 3`, and
returns a block exactly when it does not; for a supported method `compress_block`
fails with `CodecError` exactly when its codec call reports a status other than
`LZO_E_OK` or a length above `len + len/64 + 16 + 3`, and returns a block exactly
when it does not.  A failing call returns no block. -/
theorem compress_fails_iff (L : Library) (mem : Nat → Byte) (input : List Byte)
    (level header method blevel : Int)
    (hs : method = M_LZO1X_1 ∨
      (L.USE_LIBLZO = true ∧ (method = M_LZO1X_1_15 ∨ method = M_LZO1X_999))) :
    ((∃ c, compress L mem input level header = PyResult.error (LzoErr.CodecError c)) ↔
      ((compress_call L input level).err ≠ L.LZO_E_OK ∨
        (compress_call L input level).len > input.length + input.length / 16 + 64 + 3)) ∧
    ((∃ blk, compress L mem input level header = PyResult.ok blk) ↔
      ¬ ((compress_call L input level).err ≠ L.LZO_E_OK ∨
        (compress_call L input level).len > input.length + input.length / 16 + 64 + 3)) ∧
    ∃ r, compress_block_call L input method blevel = some r ∧
      ((∃ c, compress_block L mem input method blevel =
          PyResult.error (LzoErr.CodecError c)) ↔
        (r.err ≠ L.LZO_E_OK ∨ r.len > input.length + input.length / 64 + 16 + 3)) ∧
      ((∃ blk, compress_block L mem input method blevel = PyResult.ok blk) ↔
        ¬ (r.err ≠ L.LZO_E_OK ∨ r.len > input.length + input.length / 64 + 16 + 3)) := by
  have hA : ∀ hc : ((compress_call L input level).err ≠ L.LZO_E_OK ∨
      (compress_call L input level).len > input.length + input.length / 16 + 64 + 3),
      compress L mem input level header =
        PyResult.error (LzoErr.CodecError (compress_call L input level).err) :=
    fun hc => compress_fails L mem input level header hc
  have hB : ∀ hc : ¬ ((compress_call L input level).err ≠ L.LZO_E_OK ∨
      (compress_call L input level).len > input.length + input.length / 16 + 64 + 3),
      ∃ blk, compress L mem input level header = PyResult.ok blk := by
    intro hc
    rw [not_or] at hc
    exact compress_succeeds L mem input level header (not_not.mp hc.1)
      (by unfold compress_bound; omega)
  refine ⟨⟨?_, fun hc => ⟨_, hA hc⟩⟩, ⟨?_, hB⟩, ?_⟩
  · rintro ⟨c, hc⟩
    by_contra hn
    obtain ⟨blk, hb⟩ := hB hn
    rw [hb] at hc
    cases hc
  · rintro ⟨blk, hb⟩ hc
    rw [hA hc] at hb
    cases hb
  · obtain ⟨r, hr⟩ := compress_block_supported_of_tag L input method blevel hs
    refine ⟨r, hr, ?_, ?_⟩
    · rw [compress_block_eq L mem input method blevel r hr]
      unfold block_bound
      constructor
      · rintro ⟨c, hc⟩
        by_contra hn
        rw [if_neg hn] at hc
        split at hc <;> cases hc
      · intro hc
        rw [if_pos hc]
        exact ⟨_, rfl⟩
    · rw [compress_block_eq L mem input method blevel r hr]
      unfold block_bound
      constructor
      · rintro ⟨blk, hb⟩ hc
        rw [if_pos hc] at hb
        cases hb
      · intro hc
        rw [if_neg hc]
        split
        · exact ⟨_, rfl⟩
        · exact ⟨_, rfl⟩

/-- C6, at a concrete input: with a compressor that appends 100 bytes to a
three-byte input both paths fail with `CodecError`, the legacy bound being 70 and
the block bound 22. -/
theorem compress_fails_iff_witness :
    ((1 : Int) = M_LZO1X_1 ∨
      ((padLibrary 100).USE_LIBLZO = true ∧ ((1 : Int) = M_LZO1X_1_15 ∨ (1 : Int) = M_LZO1X_999))) ∧
    (∃ c, compress (padLibrary 100) junk [1, 2, 3] 1 1 =
      PyResult.error (LzoErr.CodecError c)) ∧
    (∃ c, compress_block (padLibrary 100) junk [1, 2, 3] 1 0 =
      PyResult.error (LzoErr.CodecError c)) := by
  have h := compress_fails_iff (padLibrary 100) junk [1, 2, 3] 1 1 1 0 (Or.inl (by decide))
  refine ⟨Or.inl (by decide), h.1.2 (Or.inr (by decide)), ?_⟩
  obtain ⟨r, hr, h1, -⟩ := h.2.2
  have hr2 : r = CodecResult.mk 0 103 ([1, 2, 3] ++ List.replicate 100 0) := by
    have : compress_block_call (padLibrary 100) [1, 2, 3] 1 0 =
        some (CodecResult.mk 0 103 ([1, 2, 3] ++ List.replicate 100 0)) := by
      rfl
    rw [this] at hr
    cases hr
    rfl
  subst hr2
  exact h1.2 (Or.inr (by decide))

/-! ## Decompression in header mode -/

/-- C5: on an input that passes header validation, `decompress` in header mode
hands the bytes after the 5-byte header to the safe decompressor with capacity
equal to the declared length `L`; it fails with `CorruptData` exactly when the
codec reports a status other than `LZO_E_OK` or a length other than `L`, and
otherwise returns a block of exactly `L` bytes holding what the codec wrote. -/
theorem decompress_header_strict (L : Library) (mem : Nat → Byte) (input : List Byte)
    (header buflen : Int) (hh : header ≠ 0) (hv : ¬ header_rejected input) :
    ((∃ c, decompress L mem input header buflen = PyResult.error (LzoErr.CorruptData c)) ↔
      ((L.lzo1x_decompress_safe (input.drop 5) (declared_length input)).err ≠ L.LZO_E_OK ∨
        (L.lzo1x_decompress_safe (input.drop 5) (declared_length input)).len ≠
          declared_length input)) ∧
    (((L.lzo1x_decompress_safe (input.drop 5) (declared_length input)).err ≠ L.LZO_E_OK ∨
        (L.lzo1x_decompress_safe (input.drop 5) (declared_length input)).len ≠
          declared_length input) →
      decompress L mem input header buflen = PyResult.error (LzoErr.CorruptData
        (L.lzo1x_decompress_safe (input.drop 5) (declared_length input)).err)) ∧
    (¬ ((L.lzo1x_decompress_safe (input.drop 5) (declared_length input)).err ≠ L.LZO_E_OK ∨
        (L.lzo1x_decompress_safe (input.drop 5) (declared_length input)).len ≠
          declared_length input) →
      ∃ blk, decompress L mem input header buflen = PyResult.ok blk ∧
        blk.length = declared_length input ∧
        blk = store (fresh mem (declared_length input))
          (L.lzo1x_decompress_safe (input.drop 5) (declared_length input)).data ∧
        ((L.lzo1x_decompress_safe (input.drop 5) (declared_length input)).data.length =
            declared_length input →
          blk = (L.lzo1x_decompress_safe (input.drop 5) (declared_length input)).data)) := by
  rw [decompress_header_accepted L mem input header buflen hh hv]
  refine ⟨⟨?_, fun hc => ?_⟩, fun hc => ?_, fun hc => ?_⟩
  · rintro ⟨c, hc⟩
    by_contra hn
    rw [if_neg hn] at hc
    cases hc
  · rw [if_pos hc]
    exact ⟨_, rfl⟩
  · rw [if_pos hc]
  · rw [if_neg hc]
    refine ⟨_, rfl, ?_, rfl, fun hd => ?_⟩
    · rw [store_length, fresh_length]
    · exact store_of_length_eq _ _ (by rw [fresh_length]; exact hd)

/-- C5, at a concrete input: the framed block `f0 00 00 00 02 07 09 00 00 00`
passes validation and decompresses to the two bytes `07 09`. -/
theorem decompress_header_strict_witness :
    (1 : Int) ≠ 0 ∧
    ¬ header_rejected [0xf0, 0, 0, 0, 2, 7, 9, 0, 0, 0] ∧
    decompress (padLibrary 3) junk [0xf0, 0, 0, 0, 2, 7, 9, 0, 0, 0] 1 (-1) =
      PyResult.ok [7, 9] := by
  refine ⟨by decide, by decide, ?_⟩
  obtain ⟨blk, hblk, -, -, hd⟩ :=
    (decompress_header_strict (padLibrary 3) junk [0xf0, 0, 0, 0, 2, 7, 9, 0, 0, 0] 1 (-1)
      (by decide) (by decide)).2.2 (by decide)
  rw [hblk, hd (by decide)]
  decide

/-! ## Headerless decompression -/

/-- C8: with header mode off and `buflen >= 0`, when the safe decompressor
reports `LZO_E_OK` and a length `n` below `buflen`, `decompress` succeeds with a
block of exactly `n` bytes, the first `n` bytes of the output buffer as the codec
left it (the first `n` bytes the codec wrote when it wrote at least `n`); and it
fails with `CorruptData` exactly when the codec reports another status. -/
theorem decompress_headerless_tolerant (L : Library) (mem : Nat → Byte) (input : List Byte)
    (buflen : Int) (hb : 0 ≤ buflen) :
    ((L.lzo1x_decompress_safe input buflen.toNat).err = L.LZO_E_OK →
      (L.lzo1x_decompress_safe input buflen.toNat).len < buflen.toNat →
      ∃ blk, decompress L mem input 0 buflen = PyResult.ok blk ∧
        blk.length = (L.lzo1x_decompress_safe input buflen.toNat).len ∧
        blk = (store (fresh mem buflen.toNat)
          (L.lzo1x_decompress_safe input buflen.toNat).data).take
            (L.lzo1x_decompress_safe input buflen.toNat).len ∧
        ((L.lzo1x_decompress_safe input buflen.toNat).len ≤
            (L.lzo1x_decompress_safe input buflen.toNat).data.length →
          blk = (L.lzo1x_decompress_safe input buflen.toNat).data.take
            (L.lzo1x_decompress_safe input buflen.toNat).len)) ∧
    ((∃ c, decompress L mem input 0 buflen = PyResult.error (LzoErr.CorruptData c)) ↔
      (L.lzo1x_decompress_safe input buflen.toNat).err ≠ L.LZO_E_OK) ∧
    (∀ e, decompress L mem input 0 buflen = PyResult.error e →
      e = LzoErr.CorruptData (L.lzo1x_decompress_safe input buflen.toNat).err ∧
      (L.lzo1x_decompress_safe input buflen.toNat).err ≠ L.LZO_E_OK) := by
  rw [decompress_headerless_eq L mem input buflen hb]
  refine ⟨fun hok hlt => ?_, ⟨?_, fun hc => ?_⟩, fun e he => ?_⟩
  · have hne : (L.lzo1x_decompress_safe input buflen.toNat).len ≠ buflen.toNat := by omega
    rw [if_neg (not_not.mpr hok), if_pos hne,
      resize_of_le _ _ _ (by rw [store_length, fresh_length]; omega)]
    refine ⟨_, rfl, ?_, rfl, fun hd => ?_⟩
    · rw [List.length_take, store_length, fresh_length]
      omega
    · exact store_take_of_le _ _ _ hd (by rw [fresh_length]; omega)
  · rintro ⟨c, hc⟩
    by_contra hn
    rw [if_neg (not_not.mpr hn)] at hc
    split at hc <;> cases hc
  · rw [if_pos hc]
    exact ⟨_, rfl⟩
  · by_cases hc : (L.lzo1x_decompress_safe input buflen.toNat).err ≠ L.LZO_E_OK
    · rw [if_pos hc] at he
      cases he
      exact ⟨rfl, hc⟩
    · rw [if_neg hc] at he
      split at he <;> cases he

/-- C8, at a concrete input: the headerless payload `07 09 00 00 00` decompressed
with the generous hint `buflen = 8` gives the two bytes the codec produced. -/
theorem decompress_headerless_tolerant_witness :
    (0 : Int) ≤ 8 ∧
    decompress (padLibrary 3) junk [7, 9, 0, 0, 0] 0 8 = PyResult.ok [7, 9] := by
  refine ⟨by decide, ?_⟩
  obtain ⟨blk, hblk, -, -, hd⟩ :=
    (decompress_headerless_tolerant (padLibrary 3) junk [7, 9, 0, 0, 0] 8 (by decide)).1
      (by decide) (by decide)
  rw [hblk, hd (by decide)]
  decide

/-! ## The block path -/

theorem decompress_block_eq (L : Library) (mem : Nat → Byte) (input : List Byte)
    (dst_len : Int) (hd : 0 ≤ dst_len) :
    decompress_block L mem input dst_len =
      if (L.lzo1x_decompress_safe input dst_len.toNat).err ≠ L.LZO_E_OK then
        PyResult.error LzoErr.InternalError
      else if ((L.lzo1x_decompress_safe input dst_len.toNat).len : Int) ≠ dst_len then
        PyResult.null
      else
        PyResult.ok (store (fresh mem dst_len.toNat)
          (L.lzo1x_decompress_safe input dst_len.toNat).data) := by
  have hd2 : ¬ dst_len < 0 := by omega
  simp only [decompress_block, if_neg hd2]

theorem decompress_block_negative (L : Library) (mem : Nat → Byte) (input : List Byte)
    (dst_len : Int) (hd : dst_len < 0) :
    decompress_block L mem input dst_len = PyResult.error LzoErr.OutOfMemory := by
  simp only [decompress_block, if_pos hd]

/-- C9: `decompress_block` returns a block exactly when the safe decompressor
reports `LZO_E_OK` and a length equal to `dst_len`; when the codec is called
(`dst_len >= 0`) and reports `LZO_E_OK` with another length the function returns
a bare `NULL`, neither a block nor an error; and when the codec reports another
status the function fails with an error. -/
theorem decompress_block_strict (L : Library) (mem : Nat → Byte) (input : List Byte)
    (dst_len : Int) :
    ((∃ blk, decompress_block L mem input dst_len = PyResult.ok blk) ↔
      ((L.lzo1x_decompress_safe input dst_len.toNat).err = L.LZO_E_OK ∧
        ((L.lzo1x_decompress_safe input dst_len.toNat).len : Int) = dst_len)) ∧
    (0 ≤ dst_len → (L.lzo1x_decompress_safe input dst_len.toNat).err = L.LZO_E_OK →
      ((L.lzo1x_decompress_safe input dst_len.toNat).len : Int) ≠ dst_len →
      decompress_block L mem input dst_len = PyResult.null) ∧
    ((L.lzo1x_decompress_safe input dst_len.toNat).err ≠ L.LZO_E_OK →
      ∃ e, decompress_block L mem input dst_len = PyResult.error e) ∧
    (0 ≤ dst_len → (L.lzo1x_decompress_safe input dst_len.toNat).err ≠ L.LZO_E_OK →
      decompress_block L mem input dst_len = PyResult.error LzoErr.InternalError) := by
  by_cases hd : 0 ≤ dst_len
  · rw [decompress_block_eq L mem input dst_len hd]
    refine ⟨⟨?_, ?_⟩, fun _ hok hne => ?_, fun herr => ?_, fun _ herr => ?_⟩
    · rintro ⟨blk, hb⟩
      by_cases h1 : (L.lzo1x_decompress_safe input dst_len.toNat).err ≠ L.LZO_E_OK
      · rw [if_pos h1] at hb
        cases hb
      · rw [if_neg h1] at hb
        by_cases h2 : ((L.lzo1x_decompress_safe input dst_len.toNat).len : Int) ≠ dst_len
        · rw [if_pos h2] at hb
          cases hb
        · exact ⟨not_not.mp h1, not_not.mp h2⟩
    · rintro ⟨hok, hlen⟩
      rw [if_neg (not_not.mpr hok), if_neg (not_not.mpr hlen)]
      exact ⟨_, rfl⟩
    · rw [if_neg (not_not.mpr hok), if_pos hne]
    · rw [if_pos herr]
      exact ⟨_, rfl⟩
    · rw [if_pos herr]
  · have hneg : dst_len < 0 := by omega
    rw [decompress_block_negative L mem input dst_len hneg]
    refine ⟨⟨?_, ?_⟩, fun h => absurd h hd, fun _ => ⟨_, rfl⟩, fun h => absurd h hd⟩
    · rintro ⟨blk, hb⟩
      cases hb
    · rintro ⟨-, hlen⟩
      omega

/-- C9, at a concrete input: the payload `07 09 00 00 00` holds two bytes, so
`decompress_block` with `dst_len = 8` returns a bare `NULL` although the codec
reported success. -/
theorem decompress_block_strict_witness :
    (0 : Int) ≤ 8 ∧
    ((padLibrary 3).lzo1x_decompress_safe [7, 9, 0, 0, 0] (8 : Int).toNat).err =
      (padLibrary 3).LZO_E_OK ∧
    (((padLibrary 3).lzo1x_decompress_safe [7, 9, 0, 0, 0] (8 : Int).toNat).len : Int) ≠ 8 ∧
    decompress_block (padLibrary 3) junk [7, 9, 0, 0, 0] 8 = PyResult.null :=
  ⟨by decide, by decide, by decide,
    (decompress_block_strict (padLibrary 3) junk [7, 9, 0, 0, 0] 8).2.1
      (by decide) (by decide) (by decide)⟩

/-- C7: for a supported method, when the compressor called by `compress_block`
reports `LZO_E_OK` with an output of at most `len + len/64 + 16 + 3` bytes, and
the safe decompressor applied to that output with capacity `len` reports
`LZO_E_OK`, length `len` and the original bytes, then
`decompress_block (compress_block B method level) len` succeeds and returns
`B`. -/
theorem block_round_trip (L : Library) (mem mem2 : Nat → Byte) (B : List Byte)
    (method level : Int) (r : CodecResult)
    (hcall : compress_block_call L B method level = some r)
    (hok : r.err = L.LZO_E_OK)
    (hlen : r.len ≤ B.length + B.length / 64 + 16 + 3)
    (hdec : (L.lzo1x_decompress_safe
          (codec_output mem (B.length + B.length / 64 + 16 + 3) r) B.length).err =
        L.LZO_E_OK ∧
      (L.lzo1x_decompress_safe
          (codec_output mem (B.length + B.length / 64 + 16 + 3) r) B.length).len =
        B.length ∧
      (L.lzo1x_decompress_safe
          (codec_output mem (B.length + B.length / 64 + 16 + 3) r) B.length).data = B) :
    ∃ blk, compress_block L mem B method level = PyResult.ok blk ∧
      decompress_block L mem2 blk (B.length : Int) = PyResult.ok B := by
  refine ⟨_, compress_block_ok_eq L mem B method level r hcall hok hlen, ?_⟩
  rw [decompress_block_eq L mem2 _ _ (by omega)]
  simp only [Int.toNat_ofNat]
  unfold block_bound
  obtain ⟨h1, h2, h3⟩ := hdec
  rw [if_neg (not_not.mpr h1), if_neg (by rw [h2]; exact not_not.mpr rfl), h3,
    store_of_length_eq _ _ (by rw [fresh_length])]

/-- C7, at a concrete input: three bytes survive `compress_block` followed by
`decompress_block` with the copying toy codec. -/
theorem block_round_trip_witness :
    compress_block_call (padLibrary 3) [1, 2, 3] 1 0 =
      some (CodecResult.mk 0 6 [1, 2, 3, 0, 0, 0]) ∧
    (CodecResult.mk 0 6 [1, 2, 3, 0, 0, 0]).err = (padLibrary 3).LZO_E_OK ∧
    (CodecResult.mk 0 6 [1, 2, 3, 0, 0, 0]).len ≤ 3 + 3 / 64 + 16 + 3 ∧
    codec_output junk (3 + 3 / 64 + 16 + 3) (CodecResult.mk 0 6 [1, 2, 3, 0, 0, 0]) =
      [1, 2, 3, 0, 0, 0] ∧
    (padLibrary 3).lzo1x_decompress_safe [1, 2, 3, 0, 0, 0] 3 = CodecResult.mk 0 3 [1, 2, 3] ∧
    ∃ blk, compress_block (padLibrary 3) junk [1, 2, 3] 1 0 = PyResult.ok blk ∧
      decompress_block (padLibrary 3) junk blk (([1, 2, 3] : List Byte).length : Int) =
        PyResult.ok [1, 2, 3] :=
  ⟨by decide, by decide, by decide, by decide, by decide,
    block_round_trip (padLibrary 3) junk junk [1, 2, 3] 1 0 (CodecResult.mk 0 6 [1, 2, 3, 0, 0, 0])
      (by decide) (by decide) (by decide) (by decide)⟩

/-! ## The missing length -/

/-- With header mode off and `buflen` given explicitly, `decompress` and `optimize`
fail with `MissingLength` exactly when `buflen` is negative, whatever the input
and the codec; with `buflen >= 0` neither of them fails with `MissingLength`. -/
theorem missing_length_explicit (L : Library) (mem : Nat → Byte) (input : List Byte) (buflen : Int) :
    (decompress L mem input 0 buflen = PyResult.error LzoErr.MissingLength ↔ buflen < 0) ∧
    (optimize L input 0 buflen = PyResult.error LzoErr.MissingLength ↔ buflen < 0) ∧
    decompress L mem input 0 (-1) = PyResult.error LzoErr.MissingLength ∧
    optimize L input 0 (-1) = PyResult.error LzoErr.MissingLength := by
  refine ⟨⟨fun h => ?_, decompress_headerless_missing L mem input buflen⟩,
    ⟨fun h => ?_, optimize_headerless_missing L input buflen⟩,
    decompress_headerless_missing L mem input (-1) (by decide),
    optimize_headerless_missing L input (-1) (by decide)⟩
  · by_contra hb
    rw [decompress_headerless_eq L mem input buflen (by omega)] at h
    split at h
    · cases h
    · split at h <;> cases h
  · by_contra hb
    rw [optimize_headerless_eq L input buflen (by omega)] at h
    split at h <;> cases h

theorem length_spill_zero (input : List Byte) (h : input.length < 2 ^ 32) :
    length_spill input = 0 := by
  unfold length_spill
  rw [Nat.div_eq_of_lt h]
  decide

theorem decompress_call_absent_buflen (L : Library) (mem : Nat → Byte) (input : List Byte)
    (h : input.length < 2 ^ 32) :
    decompress_call L mem input (some 0) none = decompress L mem input 0 0 ∧
    decompress_call L mem input (some 0) none ≠ PyResult.error LzoErr.MissingLength := by
  have hc : decompress_call L mem input (some 0) none = decompress L mem input 0 0 := by
    simp only [decompress_call, Option.getD, length_spill_zero input h]
  refine ⟨hc, ?_⟩
  rw [hc, decompress_headerless_eq L mem input 0 (le_refl _)]
  intro hm
  split at hm
  · cases hm
  · split at hm <;> cases hm

/-- C10 (the code departs from it): `decompress` called with header mode off and
no `buflen` does not fail with `MissingLength`.  The length of the input is
stored as 8 bytes through `int len` and overwrites the initial -1 of `buflen`
with 0, so the call goes on to the codec with capacity 0: the payload
`07 09 00 00 00`, which holds two bytes, gets `CorruptData` from the overrun the
codec reports, and the payload `00 00 00`, which holds none, gives the empty
block.  Only an explicit negative `buflen` gets `MissingLength`. -/
theorem decompress_absent_buflen_reaches_codec :
    length_spill [7, 9, 0, 0, 0] = 0 ∧
    decompress_call (padLibrary 3) junk [7, 9, 0, 0, 0] (some 0) none =
      decompress (padLibrary 3) junk [7, 9, 0, 0, 0] 0 0 ∧
    decompress_call (padLibrary 3) junk [7, 9, 0, 0, 0] (some 0) none =
      PyResult.error (LzoErr.CorruptData (-5)) ∧
    decompress_call (padLibrary 3) junk [0, 0, 0] (some 0) none = PyResult.ok [] ∧
    decompress_call (padLibrary 3) junk [7, 9, 0, 0, 0] (some 0) (some (-1)) =
      PyResult.error LzoErr.MissingLength := by
  decide

/-! ## The framed round trip -/

/-- C1 (as stated it fails): the compressor of this library reports `LZO_E_OK`
and stays within `len + len/16 + 64 + 3`, and its safe decompressor restores the
input from that output, yet the framed block `compress` returns is refused by
`decompress` with `HeaderError`.  First case: the payload for the empty input has
20 bytes, above the payload bound `0 + 0/64 + 16 + 3 = 19` of the header check.
Second case: the payload for the empty input is empty, so the block has 5 bytes,
fewer than the 8 the header check asks for. -/
theorem headered_round_trip_refuted :
    ((compress_call (padLibrary 20) [] 1).err = (padLibrary 20).LZO_E_OK ∧
      (compress_call (padLibrary 20) [] 1).len ≤ 0 + 0 / 16 + 64 + 3 ∧
      compress_payload (padLibrary 20) junk [] 1 = List.replicate 20 0 ∧
      (padLibrary 20).lzo1x_decompress_safe (List.replicate 20 0) 0 = CodecResult.mk 0 0 [] ∧
      compress (padLibrary 20) junk [] 1 1 =
        PyResult.ok ([0xf0, 0, 0, 0, 0] ++ List.replicate 20 0) ∧
      decompress (padLibrary 20) junk ([0xf0, 0, 0, 0, 0] ++ List.replicate 20 0) 1 (-1) =
        PyResult.error LzoErr.HeaderError) ∧
    ((compress_call (padLibrary 0) [] 1).err = (padLibrary 0).LZO_E_OK ∧
      (compress_call (padLibrary 0) [] 1).len ≤ 0 + 0 / 16 + 64 + 3 ∧
      compress_payload (padLibrary 0) junk [] 1 = [] ∧
      (padLibrary 0).lzo1x_decompress_safe [] 0 = CodecResult.mk 0 0 [] ∧
      compress (padLibrary 0) junk [] 1 1 = PyResult.ok [0xf0, 0, 0, 0, 0] ∧
      decompress (padLibrary 0) junk [0xf0, 0, 0, 0, 0] 1 (-1) =
        PyResult.error LzoErr.HeaderError) := by
  decide

theorem compress_tag_accepted (level : Int) :
    ¬ (compress_tag level ≠ 0xf0 ∧ compress_tag level ≠ 0xf1) := by
  unfold compress_tag
  split <;> simp

/-- C1 (amended): for every byte sequence `B` shorter than 2^31 bytes and every
level, when the compressor called by `compress` reports `LZO_E_OK` with an output
of at least 3 and at most `len + len/64 + 16 + 3` bytes, and the safe
decompressor applied to that output with capacity `len` reports `LZO_E_OK`,
length `len` and the bytes `B`, then `decompress (compress B)` in header mode
succeeds and returns exactly `B`. -/
theorem headered_round_trip (L : Library) (mem mem2 : Nat → Byte) (B : List Byte)
    (level header header2 buflen : Int)
    (hB : B.length < 2 ^ 31) (hh : header ≠ 0) (hh2 : header2 ≠ 0)
    (hok : (compress_call L B level).err = L.LZO_E_OK)
    (hlo : 3 ≤ (compress_call L B level).len)
    (hhi : (compress_call L B level).len ≤ B.length + B.length / 64 + 16 + 3)
    (hdec : (L.lzo1x_decompress_safe (compress_payload L mem B level) B.length).err =
        L.LZO_E_OK ∧
      (L.lzo1x_decompress_safe (compress_payload L mem B level) B.length).len = B.length ∧
      (L.lzo1x_decompress_safe (compress_payload L mem B level) B.length).data = B) :
    ∃ blk, compress L mem B level header = PyResult.ok blk ∧
      decompress L mem2 blk header2 buflen = PyResult.ok B := by
  have hbound : (compress_call L B level).len ≤ compress_bound B.length := by
    unfold compress_bound; omega
  have hpl : (compress_payload L mem B level).length = (compress_call L B level).len :=
    codec_output_length _ _ _ hbound
  refine ⟨_, compress_header_eq L mem B level header hh hok hbound, ?_⟩
  have hdecl : declared_length (compress_tag level ::
      toByte ((B.length >>> 24) &&& 0xff) :: toByte ((B.length >>> 16) &&& 0xff) ::
      toByte ((B.length >>> 8) &&& 0xff) :: toByte ((B.length >>> 0) &&& 0xff) ::
      compress_payload L mem B level) = B.length :=
    be32_length B.length (by omega)
  have hacc : ¬ header_rejected (compress_tag level ::
      toByte ((B.length >>> 24) &&& 0xff) :: toByte ((B.length >>> 16) &&& 0xff) ::
      toByte ((B.length >>> 8) &&& 0xff) :: toByte ((B.length >>> 0) &&& 0xff) ::
      compress_payload L mem B level) := by
    unfold header_rejected
    rw [hdecl, toInt32_neg_iff _ (by omega)]
    unfold block_bound
    simp only [List.length_cons, not_or, hpl]
    refine ⟨by omega, compress_tag_accepted level, by omega, by omega⟩
  rw [decompress_header_accepted L mem2 _ header2 buflen hh2 hacc, hdecl]
  simp only [List.drop_succ_cons, List.drop_zero]
  obtain ⟨h1, h2, h3⟩ := hdec
  rw [if_neg (by rw [not_or]; exact ⟨not_not.mpr h1, not_not.mpr h2⟩), h3,
    store_of_length_eq _ _ (by rw [fresh_length])]

/-- C1 (amended), at a concrete input: ten bytes `a` survive `compress` followed
by `decompress` in header mode with the copying toy codec, whose payload has 13
bytes. -/
theorem headered_round_trip_witness :
    (List.replicate 10 (0x61 : Byte)).length < 2 ^ 31 ∧
    (compress_call (padLibrary 3) (List.replicate 10 0x61) 1).err = (padLibrary 3).LZO_E_OK ∧
    3 ≤ (compress_call (padLibrary 3) (List.replicate 10 0x61) 1).len ∧
    (compress_call (padLibrary 3) (List.replicate 10 0x61) 1).len ≤ 10 + 10 / 64 + 16 + 3 ∧
    compress_payload (padLibrary 3) junk (List.replicate 10 0x61) 1 =
      List.replicate 10 0x61 ++ [0, 0, 0] ∧
    (padLibrary 3).lzo1x_decompress_safe (List.replicate 10 0x61 ++ [0, 0, 0]) 10 =
      CodecResult.mk 0 10 (List.replicate 10 0x61) ∧
    ∃ blk, compress (padLibrary 3) junk (List.replicate 10 0x61) 1 1 = PyResult.ok blk ∧
      decompress (padLibrary 3) junk blk 1 (-1) = PyResult.ok (List.replicate 10 0x61) :=
  ⟨by decide, by decide, by decide, by decide, by decide, by decide,
    headered_round_trip (padLibrary 3) junk junk (List.replicate 10 0x61) 1 1 1 (-1)
      (by decide) (by decide) (by decide) (by decide) (by decide) (by decide)
      (by decide)⟩

/-! ## Unsupported methods -/

theorem compress_block_unsupported_iff (L : Library) (mem : Nat → Byte) (input : List Byte)
    (method level : Int) :
    compress_block L mem input method level = PyResult.error LzoErr.UnsupportedVariant ↔
      ¬ (parse_I method = M_LZO1X_1 ∨
        (L.USE_LIBLZO = true ∧
          (parse_I method = M_LZO1X_1_15 ∨ parse_I method = M_LZO1X_999))) := by
  rw [← compress_block_supported_iff L input method level]
  constructor
  · rintro h ⟨r, hr⟩
    rw [compress_block_eq L mem input method level r hr] at h
    split at h
    · cases h
    · split at h <;> cases h
  · intro h
    have hn : compress_block_call L input method level = none := by
      cases hc : compress_block_call L input method level with
      | none => rfl
      | some r => exact absurd ⟨r, hc⟩ h
    simp only [compress_block, hn]

theorem compress_block_unsupported_mod_iff (L : Library) (mem : Nat → Byte)
    (input : List Byte) (method level : Int) :
    compress_block L mem input method level = PyResult.error LzoErr.UnsupportedVariant ↔
      ¬ (method % 2 ^ 32 = 1 ∨
        (L.USE_LIBLZO = true ∧ (method % 2 ^ 32 = 2 ∨ method % 2 ^ 32 = 3))) := by
  rw [compress_block_unsupported_iff]
  unfold M_LZO1X_1 M_LZO1X_1_15 M_LZO1X_999
  rw [parse_I_eq_iff method 1 (by decide) (by decide),
    parse_I_eq_iff method 2 (by decide) (by decide),
    parse_I_eq_iff method 3 (by decide) (by decide)]

/-- C11 (as stated it fails): the method tag 4294967297 is none of 1, 2, 3, yet
the parser of line 398 stores it in `int method` as 1, the fast compressor runs
and `compress_block` returns a block instead of failing with
`UnsupportedVariant`. -/
theorem unsupported_variant_refuted :
    (4294967297 : Int) ≠ 1 ∧ (4294967297 : Int) ≠ 2 ∧ (4294967297 : Int) ≠ 3 ∧
    parse_I 4294967297 = 1 ∧
    compress_block_call (padLibrary 3) [1, 2, 3] 4294967297 0 =
      some ((padLibrary 3).lzo1x_1_compress [1, 2, 3]) ∧
    compress_block (padLibrary 3) junk [1, 2, 3] 4294967297 0 =
      PyResult.ok [1, 2, 3, 0, 0, 0] := by
  decide

/-- C11 (amended): `compress_block` fails with `UnsupportedVariant`, and returns
no block, for every method tag that is not congruent to 1, 2 or 3 modulo 2^32 (the
parser keeps the low 32 bits of the tag), so for every tag from -2^31 to 2^32 - 1
other than 1, 2 and 3; it never fails with `UnsupportedVariant` for tag 1, nor for
tags 2 and 3 in a build with `USE_LIBLZO`; in a build without `USE_LIBLZO` the
tags 2 and 3 are not compiled in and get `UnsupportedVariant` as well. -/
theorem unsupported_variant (L : Library) (mem : Nat → Byte) (input : List Byte)
    (method level : Int) :
    (method % 2 ^ 32 ≠ 1 → method % 2 ^ 32 ≠ 2 → method % 2 ^ 32 ≠ 3 →
      compress_block L mem input method level = PyResult.error LzoErr.UnsupportedVariant) ∧
    (-2 ^ 31 ≤ method → method < 2 ^ 32 → method ≠ 1 → method ≠ 2 → method ≠ 3 →
      compress_block L mem input method level = PyResult.error LzoErr.UnsupportedVariant) ∧
    compress_block L mem input 1 level ≠ PyResult.error LzoErr.UnsupportedVariant ∧
    (L.USE_LIBLZO = true →
      compress_block L mem input 2 level ≠ PyResult.error LzoErr.UnsupportedVariant ∧
      compress_block L mem input 3 level ≠ PyResult.error LzoErr.UnsupportedVariant) ∧
    (L.USE_LIBLZO = false →
      compress_block L mem input 2 level = PyResult.error LzoErr.UnsupportedVariant ∧
      compress_block L mem input 3 level = PyResult.error LzoErr.UnsupportedVariant) ∧
    (compress_block L mem input method level = PyResult.error LzoErr.UnsupportedVariant ↔
      ¬ (method % 2 ^ 32 = 1 ∨
        (L.USE_LIBLZO = true ∧ (method % 2 ^ 32 = 2 ∨ method % 2 ^ 32 = 3)))) := by
  refine ⟨fun h1 h2 h3 => ?_, fun hlo hhi h1 h2 h3 => ?_, ?_, fun hu => ⟨?_, ?_⟩,
    fun hu => ⟨?_, ?_⟩, compress_block_unsupported_mod_iff L mem input method level⟩
  · rw [compress_block_unsupported_mod_iff]
    rintro (h | ⟨-, h | h⟩)
    · exact h1 h
    · exact h2 h
    · exact h3 h
  · rw [compress_block_unsupported_mod_iff]
    rintro (h | ⟨-, h | h⟩) <;> omega
  · rw [Ne, compress_block_unsupported_mod_iff, not_not]
    exact Or.inl (by decide)
  · rw [Ne, compress_block_unsupported_mod_iff, not_not]
    exact Or.inr ⟨hu, Or.inl (by decide)⟩
  · rw [Ne, compress_block_unsupported_mod_iff, not_not]
    exact Or.inr ⟨hu, Or.inr (by decide)⟩
  · rw [compress_block_unsupported_mod_iff]
    rintro (h | ⟨hu2, -⟩)
    · exact absurd h (by decide)
    · rw [hu] at hu2
      cases hu2
  · rw [compress_block_unsupported_mod_iff]
    rintro (h | ⟨hu2, -⟩)
    · exact absurd h (by decide)
    · rw [hu] at hu2
      cases hu2

/-- C11 (amended), at a concrete input: method tag 7 is refused with
`UnsupportedVariant`, and in a build with `USE_LIBLZO` the tags 2 and 3 are
not. -/
theorem unsupported_variant_witness :
    (-2 ^ 31 : Int) ≤ 7 ∧ (7 : Int) < 2 ^ 32 ∧
    (7 : Int) ≠ 1 ∧ (7 : Int) ≠ 2 ∧ (7 : Int) ≠ 3 ∧
    compress_block (padLibrary 3) junk [1, 2, 3] 7 0 =
      PyResult.error LzoErr.UnsupportedVariant ∧
    (padLibrary 3).USE_LIBLZO = true ∧
    compress_block (padLibrary 3) junk [1, 2, 3] 2 0 ≠
      PyResult.error LzoErr.UnsupportedVariant ∧
    compress_block (padLibrary 3) junk [1, 2, 3] 3 0 ≠
      PyResult.error LzoErr.UnsupportedVariant :=
  ⟨by decide, by decide, by decide, by decide, by decide,
    (unsupported_variant (padLibrary 3) junk [1, 2, 3] 7 0).2.1
      (by decide) (by decide) (by decide) (by decide) (by decide),
    by decide,
    ((unsupported_variant (padLibrary 3) junk [1, 2, 3] 7 0).2.2.2.1 (by decide)).1,
    ((unsupported_variant (padLibrary 3) junk [1, 2, 3] 7 0).2.2.2.1 (by decide)).2⟩

/-! ## The two bounds and the length field -/

theorem bound_gap (n : Nat) : block_bound n < compress_bound n := by
  unfold block_bound compress_bound
  omega

/-- C16: for every uncompressed length `n < 2^31` there is a payload length `p`
with `n + n/64 + 16 + 3 < p <= n + n/16 + 64 + 3`; and whenever the compressor
reports `LZO_E_OK` with such a length `p` for an input of `n` bytes, `compress`
in header mode returns a framed block (no `CodecError`) that `decompress` in
header mode refuses with `HeaderError`, before any call of the decompressor. -/
theorem bounds_disagree (n : Nat) (hn : n < 2 ^ 31) :
    (∃ p, n + n / 64 + 16 + 3 < p ∧ p ≤ n + n / 16 + 64 + 3) ∧
    ∀ (L : Library) (mem mem2 : Nat → Byte) (B : List Byte)
      (level header header2 buflen : Int),
      B.length = n → header ≠ 0 → header2 ≠ 0 →
      (compress_call L B level).err = L.LZO_E_OK →
      n + n / 64 + 16 + 3 < (compress_call L B level).len →
      (compress_call L B level).len ≤ n + n / 16 + 64 + 3 →
      ∃ blk, compress L mem B level header = PyResult.ok blk ∧
        blk.length = 5 + (compress_call L B level).len ∧
        decompress L mem2 blk header2 buflen = PyResult.error LzoErr.HeaderError ∧
        ∀ L2 : Library,
          decompress L2 mem2 blk header2 buflen = PyResult.error LzoErr.HeaderError := by
  refine ⟨⟨n + n / 16 + 64 + 3, by omega, le_refl _⟩, ?_⟩
  intro L mem mem2 B level header header2 buflen hB hh hh2 hok hlo hhi
  subst hB
  have hbound : (compress_call L B level).len ≤ compress_bound B.length := by
    unfold compress_bound; omega
  have hpl : (compress_payload L mem B level).length = (compress_call L B level).len :=
    codec_output_length _ _ _ hbound
  have hdecl : declared_length (compress_tag level ::
      toByte ((B.length >>> 24) &&& 0xff) :: toByte ((B.length >>> 16) &&& 0xff) ::
      toByte ((B.length >>> 8) &&& 0xff) :: toByte ((B.length >>> 0) &&& 0xff) ::
      compress_payload L mem B level) = B.length :=
    be32_length B.length (by omega)
  have hrej : header_rejected (compress_tag level ::
      toByte ((B.length >>> 24) &&& 0xff) :: toByte ((B.length >>> 16) &&& 0xff) ::
      toByte ((B.length >>> 8) &&& 0xff) :: toByte ((B.length >>> 0) &&& 0xff) ::
      compress_payload L mem B level) := by
    unfold header_rejected
    right; right; right
    rw [hdecl]
    unfold block_bound
    simp only [List.length_cons, hpl]
    omega
  refine ⟨_, compress_header_eq L mem B level header hh hok hbound, ?_,
    decompress_header_rejected L mem2 _ header2 buflen hh2 hrej,
    fun L2 => decompress_header_rejected L2 mem2 _ header2 buflen hh2 hrej⟩
  simp only [List.length_cons, hpl]
  omega

/-- C16, at a concrete input: the empty input with a compressor that emits 20
bytes gives a 25-byte framed block, which `decompress` refuses. -/
theorem bounds_disagree_witness :
    (0 : Nat) < 2 ^ 31 ∧
    (compress_call (padLibrary 20) [] 1).err = (padLibrary 20).LZO_E_OK ∧
    0 + 0 / 64 + 16 + 3 < (compress_call (padLibrary 20) [] 1).len ∧
    (compress_call (padLibrary 20) [] 1).len ≤ 0 + 0 / 16 + 64 + 3 ∧
    ∃ blk, compress (padLibrary 20) junk [] 1 1 = PyResult.ok blk ∧
      blk.length = 5 + (compress_call (padLibrary 20) [] 1).len ∧
      decompress (padLibrary 20) junk blk 1 (-1) = PyResult.error LzoErr.HeaderError ∧
      ∀ L2 : Library, decompress L2 junk blk 1 (-1) = PyResult.error LzoErr.HeaderError :=
  ⟨by decide, by decide, by decide, by decide,
    (bounds_disagree 0 (by decide)).2 (padLibrary 20) junk junk [] 1 1 1 (-1)
      rfl (by decide) (by decide) (by decide) (by decide) (by decide)⟩

/-- C17: for every length `n < 2^31` the four bytes `compress` stores at positions
1..4 are read back by the header reader of `decompress` as exactly `n`, and that
value passes the signed check (it is not negative as an `int`); and every header
whose byte 1 is at least 0x80 is read as a value that fails the check. -/
theorem length_field_round_trip (n : Nat) (hn : n < 2 ^ 31) :
    (∀ (tag : Byte) (payload : List Byte),
      read_out_len (tag :: toByte ((n >>> 24) &&& 0xff) :: toByte ((n >>> 16) &&& 0xff) ::
        toByte ((n >>> 8) &&& 0xff) :: toByte ((n >>> 0) &&& 0xff) :: payload) = n) ∧
    ¬ toInt32 n < 0 ∧
    ∀ buf : List Byte, 0x80 ≤ byteAt buf 1 → toInt32 (read_out_len buf) < 0 := by
  refine ⟨fun tag payload => ?_, ?_, fun buf hb => ?_⟩
  · rw [read_out_len_eq]
    exact be32_length n (by omega)
  · rw [toInt32_neg_iff n (by omega)]
    omega
  · rw [read_out_len_eq, toInt32_neg_iff _ (be32_lt _ _ _ _), be32_ge_iff]
    exact hb

/-- C17, at a concrete input: the length 1000000 is stored as `00 0f 42 40` and
read back as 1000000, while the header bytes `80 00 00 00` fail the signed
check. -/
theorem length_field_round_trip_witness :
    (1000000 : Nat) < 2 ^ 31 ∧
    read_out_len [0xf0, 0x00, 0x0f, 0x42, 0x40] = 1000000 ∧
    toInt32 (read_out_len [0xf0, 0x80, 0x00, 0x00, 0x00]) < 0 :=
  ⟨by decide,
    (length_field_round_trip 1000000 (by decide)).1 0xf0 [],
    (length_field_round_trip 1000000 (by decide)).2.2 [0xf0, 0x80, 0x00, 0x00, 0x00]
      (by decide)⟩

/-! ## Checksums -/

/-- C12: on an empty byte sequence `adler32`, `py_lzo_adler32`, `crc32` and
`py_lzo_crc32` return the seed `s` unchanged, for every 32-bit seed and whatever
the checksum primitives of the library (and the memory behind a stray pointer)
are: the primitives are not called.  With the seed absent, `adler32` and
`py_lzo_adler32` of the empty sequence are 1 and `crc32` of the empty sequence is
0.  For an integer `t` of any size the two block-path functions return its low 32
bits, which is what the format `I` stores as the seed. -/
theorem checksum_empty (L L2 : Library) (stray stray2 : Option (List Byte)) (s : Nat)
    (hs : s < 2 ^ 32) :
    adler32 L stray [] s = some s ∧ py_lzo_adler32 L [] s = s ∧
    crc32 L stray [] s = some s ∧ py_lzo_crc32 L s [] = s ∧
    adler32 L stray [] s = adler32 L2 stray2 [] s ∧
    py_lzo_adler32 L [] s = py_lzo_adler32 L2 [] s ∧
    crc32 L stray [] s = crc32 L2 stray2 [] s ∧
    py_lzo_crc32 L s [] = py_lzo_crc32 L2 s [] ∧
    adler32 L stray [] adler32_default = some 1 ∧
    py_lzo_adler32 L [] py_lzo_adler32_default = 1 ∧
    crc32 L stray [] crc32_default = some 0 ∧
    (∀ t : Nat, py_lzo_adler32 L [] t = t % 2 ^ 32 ∧ py_lzo_crc32 L t [] = t % 2 ^ 32) := by
  have hm : s % 2 ^ 32 = s := Nat.mod_eq_of_lt hs
  have h1 : adler32 L stray [] s = some s := by simp [adler32]
  have h2 : py_lzo_adler32 L [] s = s := by simp only [py_lzo_adler32]; simpa using hm
  have h3 : crc32 L stray [] s = some s := by simp [crc32]
  have h4 : py_lzo_crc32 L s [] = s := by simp only [py_lzo_crc32]; simpa using hm
  have h5 : adler32 L2 stray2 [] s = some s := by simp [adler32]
  have h6 : py_lzo_adler32 L2 [] s = s := by simp only [py_lzo_adler32]; simpa using hm
  have h7 : crc32 L2 stray2 [] s = some s := by simp [crc32]
  have h8 : py_lzo_crc32 L2 s [] = s := by simp only [py_lzo_crc32]; simpa using hm
  refine ⟨h1, h2, h3, h4, by rw [h1, h5], by rw [h2, h6], by rw [h3, h7], by rw [h4, h8],
    ?_, ?_, ?_, fun t => ⟨?_, ?_⟩⟩
  · simp [adler32, adler32_default]
  · simp [py_lzo_adler32, py_lzo_adler32_default]
  · simp [crc32, crc32_default]
  · simp [py_lzo_adler32]
  · simp [py_lzo_crc32]

/-- C12, at a concrete input: the seed 5 comes back unchanged from all four
functions on the empty buffer. -/
theorem checksum_empty_witness :
    (5 : Nat) < 2 ^ 32 ∧
    adler32 (padLibrary 3) none [] 5 = some 5 ∧ py_lzo_adler32 (padLibrary 3) [] 5 = 5 ∧
    crc32 (padLibrary 3) none [] 5 = some 5 ∧ py_lzo_crc32 (padLibrary 3) 5 [] = 5 :=
  ⟨by decide,
    (checksum_empty (padLibrary 3) adlerLibrary none none 5 (by decide)).1,
    (checksum_empty (padLibrary 3) adlerLibrary none none 5 (by decide)).2.1,
    (checksum_empty (padLibrary 3) adlerLibrary none none 5 (by decide)).2.2.1,
    (checksum_empty (padLibrary 3) adlerLibrary none none 5 (by decide)).2.2.2.1⟩

/-! ## Standard Adler-32 under its own checksum as seed -/

theorem adler_fold_lt (buf : List Byte) (s : Nat × Nat) (h1 : s.1 < 65521) (h2 : s.2 < 65521) :
    (buf.foldl adler_step s).1 < 65521 ∧ (buf.foldl adler_step s).2 < 65521 := by
  induction buf generalizing s with
  | nil => exact ⟨h1, h2⟩
  | cons x xs ih =>
    rw [List.foldl_cons]
    exact ih _ (Nat.mod_lt _ (by decide)) (Nat.mod_lt _ (by decide))

theorem adler_fold_lt_of_ne_nil (buf : List Byte) (s : Nat × Nat) (hb : buf ≠ []) :
    (buf.foldl adler_step s).1 < 65521 ∧ (buf.foldl adler_step s).2 < 65521 := by
  cases buf with
  | nil => exact absurd rfl hb
  | cons x xs =>
    rw [List.foldl_cons]
    exact adler_fold_lt xs _ (Nat.mod_lt _ (by decide)) (Nat.mod_lt _ (by decide))

theorem adler_fold_fst (buf : List Byte) (a b : Nat) :
    (buf.foldl adler_step (a, b)).1 % 65521 = (a + byte_sum buf) % 65521 := by
  induction buf generalizing a b with
  | nil => simp [byte_sum]
  | cons x xs ih =>
    have hs : adler_step (a, b) x =
        ((a + x.val) % 65521, (b + (a + x.val) % 65521) % 65521) := rfl
    rw [List.foldl_cons, hs, ih]
    simp only [byte_sum]
    omega

theorem adler_fold_snd (buf : List Byte) (a b : Nat) :
    (buf.foldl adler_step (a, b)).2 % 65521 =
      (b + buf.length * a + weighted_sum buf) % 65521 := by
  induction buf generalizing a b with
  | nil => simp [weighted_sum]
  | cons x xs ih =>
    have hs : adler_step (a, b) x =
        ((a + x.val) % 65521, (b + (a + x.val) % 65521) % 65521) := rfl
    rw [List.foldl_cons, hs, ih]
    simp only [weighted_sum, List.length_cons]
    have ha : Nat.ModEq 65521 ((a + x.val) % 65521) (a + x.val) := Nat.mod_modEq _ _
    have hb : Nat.ModEq 65521 ((b + (a + x.val) % 65521) % 65521) (b + (a + x.val)) :=
      (Nat.mod_modEq _ _).trans (Nat.ModEq.add_left b ha)
    have hsum := (hb.add (ha.mul_left xs.length)).add_right (weighted_sum xs)
    have hring : b + (a + x.val) + xs.length * (a + x.val) + weighted_sum xs =
        b + (xs.length + 1) * a + ((xs.length + 1) * x.val + weighted_sum xs) := by
      ring
    rw [hring] at hsum
    exact hsum

theorem adler_pack (a b : Nat) (ha : a < 65536) : (b <<< 16) ||| a = b * 65536 + a := by
  rw [Nat.shiftLeft_eq, Nat.mul_comm b, ← Nat.mul_add_lt_is_or (by omega) b]

theorem adler_unpack (a b : Nat) (ha : a < 65536) (hb : b < 65536) :
    (b * 65536 + a) &&& 0xffff = a ∧ ((b * 65536 + a) >>> 16) &&& 0xffff = b := by
  have hand : ∀ x : Nat, x &&& 0xffff = x % 65536 := fun x =>
    Nat.and_pow_two_sub_one_eq_mod x 16
  rw [hand, hand, Nat.shiftRight_eq_div_pow]
  constructor <;> omega

theorem std_adler32_pack (adler : Nat) (B : List Byte) (hB : B ≠ []) :
    std_adler32 adler B =
      (B.foldl adler_step (adler &&& 0xffff, (adler >>> 16) &&& 0xffff)).2 * 65536 +
        (B.foldl adler_step (adler &&& 0xffff, (adler >>> 16) &&& 0xffff)).1 := by
  have hlt := adler_fold_lt_of_ne_nil B (adler &&& 0xffff, (adler >>> 16) &&& 0xffff) hB
  unfold std_adler32
  exact adler_pack _ _ (by omega)

theorem std_adler32_lt (adler : Nat) (B : List Byte) (hB : B ≠ []) :
    std_adler32 adler B < 2 ^ 32 := by
  rw [std_adler32_pack adler B hB]
  obtain ⟨ha, hb⟩ :=
    adler_fold_lt_of_ne_nil B (adler &&& 0xffff, (adler >>> 16) &&& 0xffff) hB
  omega

theorem std_adler32_one (B : List Byte) :
    std_adler32 1 B =
      (B.foldl adler_step (1, 0)).2 * 65536 + (B.foldl adler_step (1, 0)).1 ∨ B = [] := by
  by_cases hB : B = []
  · exact Or.inr hB
  · left
    have hlt := adler_fold_lt_of_ne_nil B (1, 0) hB
    unfold std_adler32
    have h1 : (1 : Nat) &&& 0xffff = 1 := by decide
    have h0 : ((1 : Nat) >>> 16) &&& 0xffff = 0 := by decide
    rw [h1, h0]
    exact adler_pack _ _ (by omega)

theorem std_adler32_fixed (B : List Byte) (hB : B ≠ []) :
    std_adler32 (std_adler32 1 B) B = std_adler32 1 B ↔ std_adler32 1 B = 1 := by
  constructor
  · intro h
    have hA := (std_adler32_one B).resolve_right hB
    obtain ⟨ha, hb⟩ := adler_fold_lt_of_ne_nil B (1, 0) hB
    obtain ⟨hu1, hu2⟩ := adler_unpack _ _ (show (B.foldl adler_step (1, 0)).1 < 65536 by omega)
      (show (B.foldl adler_step (1, 0)).2 < 65536 by omega)
    have h1 := adler_fold_fst B 1 0
    have h2 := adler_fold_snd B 1 0
    have h3 := adler_fold_fst B (B.foldl adler_step (1, 0)).1 (B.foldl adler_step (1, 0)).2
    have h4 := adler_fold_snd B (B.foldl adler_step (1, 0)).1 (B.foldl adler_step (1, 0)).2
    obtain ⟨ha2, hb2⟩ := adler_fold_lt_of_ne_nil B
      ((B.foldl adler_step (1, 0)).1, (B.foldl adler_step (1, 0)).2) hB
    have hS : std_adler32 (std_adler32 1 B) B =
        (B.foldl adler_step ((B.foldl adler_step (1, 0)).1,
          (B.foldl adler_step (1, 0)).2)).2 * 65536 +
        (B.foldl adler_step ((B.foldl adler_step (1, 0)).1,
          (B.foldl adler_step (1, 0)).2)).1 := by
      rw [hA]
      unfold std_adler32
      rw [hu1, hu2]
      exact adler_pack _ _ (by omega)
    rw [hS, hA] at h
    rw [hA]
    generalize (B.foldl adler_step ((B.foldl adler_step (1, 0)).1,
      (B.foldl adler_step (1, 0)).2)).1 = a2 at *
    generalize (B.foldl adler_step ((B.foldl adler_step (1, 0)).1,
      (B.foldl adler_step (1, 0)).2)).2 = b2 at *
    generalize (B.foldl adler_step (1, 0)).1 = a at *
    generalize (B.foldl adler_step (1, 0)).2 = b at *
    have hae : a2 = a := by omega
    have hbe : b2 = b := by omega
    subst hae hbe
    have ha1 : a2 = 1 := by omega
    subst ha1
    rw [Nat.mul_one] at h2 h4
    omega
  · intro h
    rw [h]
    exact h

theorem std_adler32_one_lt (B : List Byte) (hB : B ≠ []) : std_adler32 1 B < 2 ^ 32 := by
  rw [(std_adler32_one B).resolve_right hB]
  obtain ⟨ha, hb⟩ := adler_fold_lt_of_ne_nil B (1, 0) hB
  omega

theorem byte_sum_zeros (n : Nat) : byte_sum (List.replicate n 0) = 0 := by
  induction n with
  | zero => rfl
  | succ n ih => simp [List.replicate_succ, byte_sum, ih]

theorem weighted_sum_zeros (n : Nat) : weighted_sum (List.replicate n 0) = 0 := by
  induction n with
  | zero => rfl
  | succ n ih => simp [List.replicate_succ, weighted_sum, ih]

theorem std_adler32_zeros : std_adler32 1 (List.replicate 65521 0) = 1 := by
  have hB : List.replicate 65521 (0 : Byte) ≠ [] := by
    intro h
    have hl := congrArg List.length h
    rw [List.length_replicate] at hl
    cases hl
  rw [(std_adler32_one _).resolve_right hB]
  obtain ⟨ha, hb⟩ := adler_fold_lt_of_ne_nil (List.replicate 65521 (0 : Byte)) (1, 0) hB
  have h1 := adler_fold_fst (List.replicate 65521 (0 : Byte)) 1 0
  have h2 := adler_fold_snd (List.replicate 65521 (0 : Byte)) 1 0
  rw [byte_sum_zeros] at h1
  rw [weighted_sum_zeros, List.length_replicate] at h2
  omega

theorem py_lzo_adler32_eq_std (L : Library) (hstd : L.lzo_adler32 = std_adler32)
    (B : List Byte) (hB : B ≠ []) (v : Nat) :
    py_lzo_adler32 L B v = std_adler32 (v % 2 ^ 32) B := by
  have hl : B.length > 0 := List.length_pos.mpr hB
  simp only [py_lzo_adler32, if_pos hl, hstd]
  exact Nat.mod_eq_of_lt (std_adler32_lt _ B hB)

/-- C13 (as stated it fails): with standard Adler-32 as the primitive, the
non-empty buffer of 65521 zero bytes has the checksum 1 under the default seed
(the byte sum is 0 and the second sum is 65521, which is 0 modulo 65521), so
`py_lzo_adler32` fed with that checksum as the seed gives the same checksum
again. -/
theorem adler_seed_propagation_refuted :
    adlerLibrary.lzo_adler32 = std_adler32 ∧
    (List.replicate 65521 (0 : Byte)).length = 65521 ∧
    py_lzo_adler32 adlerLibrary (List.replicate 65521 0) py_lzo_adler32_default = 1 ∧
    py_lzo_adler32 adlerLibrary (List.replicate 65521 0)
        (py_lzo_adler32 adlerLibrary (List.replicate 65521 0) py_lzo_adler32_default) =
      py_lzo_adler32 adlerLibrary (List.replicate 65521 0) py_lzo_adler32_default := by
  have hB : List.replicate 65521 (0 : Byte) ≠ [] := by
    intro h
    have hl := congrArg List.length h
    rw [List.length_replicate] at hl
    cases hl
  have he := py_lzo_adler32_eq_std adlerLibrary rfl _ hB
  have h2 : py_lzo_adler32 adlerLibrary (List.replicate 65521 0) py_lzo_adler32_default =
      1 := by
    rw [he]
    exact std_adler32_zeros
  refine ⟨rfl, List.length_replicate _ _, h2, ?_⟩
  rw [h2]
  exact h2

/-- C13 (amended): with standard Adler-32 as the primitive, for every non-empty
byte sequence `B` whose checksum under the default seed 1 is not 1 itself,
`py_lzo_adler32 (B, seed = py_lzo_adler32 B)` differs from `py_lzo_adler32 B`;
the two agree exactly when the checksum of `B` is 1. -/
theorem adler_seed_propagation (L : Library) (hstd : L.lzo_adler32 = std_adler32)
    (B : List Byte) (hB : B ≠ []) :
    (py_lzo_adler32 L B py_lzo_adler32_default ≠ 1 →
      py_lzo_adler32 L B (py_lzo_adler32 L B py_lzo_adler32_default) ≠
        py_lzo_adler32 L B py_lzo_adler32_default) ∧
    (py_lzo_adler32 L B (py_lzo_adler32 L B py_lzo_adler32_default) =
        py_lzo_adler32 L B py_lzo_adler32_default ↔
      py_lzo_adler32 L B py_lzo_adler32_default = 1) := by
  have he := py_lzo_adler32_eq_std L hstd B hB
  have hlt := std_adler32_one_lt B hB
  have hfix := std_adler32_fixed B hB
  have hP : (py_lzo_adler32 L B (py_lzo_adler32 L B py_lzo_adler32_default) =
      py_lzo_adler32 L B py_lzo_adler32_default ↔
      py_lzo_adler32 L B py_lzo_adler32_default = 1) := by
    unfold py_lzo_adler32_default
    rw [he 1, he _]
    have h1 : (1 : Nat) % 2 ^ 32 = 1 := by decide
    rw [h1, Nat.mod_eq_of_lt hlt]
    exact hfix
  exact ⟨fun h hc => h (hP.1 hc), hP⟩

/-- C13 (amended), at a concrete input: the one-byte buffer `a` has the checksum
0x00620062, and seeding with it gives another value. -/
theorem adler_seed_propagation_witness :
    adlerLibrary.lzo_adler32 = std_adler32 ∧ ([0x61] : List Byte) ≠ [] ∧
    py_lzo_adler32 adlerLibrary [0x61] py_lzo_adler32_default = 0x00620062 ∧
    py_lzo_adler32 adlerLibrary [0x61] py_lzo_adler32_default ≠ 1 ∧
    py_lzo_adler32 adlerLibrary [0x61]
        (py_lzo_adler32 adlerLibrary [0x61] py_lzo_adler32_default) ≠
      py_lzo_adler32 adlerLibrary [0x61] py_lzo_adler32_default :=
  ⟨rfl, by decide, by decide, by decide,
    (adler_seed_propagation adlerLibrary rfl [0x61] (by decide)).1 (by decide)⟩

/-! ## The optimizer -/

theorem optimize_buffers_eq (L : Library) (input : List Byte) (header buflen : Int) :
    optimize_buffers L input header buflen = (optimize L input header buflen, input) := by
  simp only [optimize_buffers, optimize, OptimizeHeap.load, OptimizeHeap.storeAt,
    List.take_length]
  split
  · rfl
  · split <;> split <;> rfl

theorem frame_split (X : List Byte) (h : 5 ≤ X.length) :
    ∃ a b c d e P, X = a :: b :: c :: d :: e :: P := by
  rcases X with _ | ⟨a, _ | ⟨b, _ | ⟨c, _ | ⟨d, _ | ⟨e, P⟩⟩⟩⟩⟩
  all_goals first
    | exact ⟨_, _, _, _, _, _, rfl⟩
    | simp at h

theorem header_rejected_length (X : List Byte) (h : ¬ header_rejected X) : 8 ≤ X.length := by
  unfold header_rejected at h
  rw [not_or] at h
  omega

theorem header_rejected_frame (X P : List Byte) (hP : P.length = X.length - 5)
    (h : 5 ≤ X.length) :
    (X.take 5 ++ P).length = X.length ∧
    (X.take 5 ++ P).take 5 = X.take 5 ∧
    (X.take 5 ++ P).drop 5 = P ∧
    declared_length (X.take 5 ++ P) = declared_length X ∧
    (header_rejected (X.take 5 ++ P) ↔ header_rejected X) := by
  obtain ⟨a, b, c, d, e, Q, rfl⟩ := frame_split X h
  simp only [List.length_cons] at hP
  have hP2 : P.length = Q.length := by omega
  refine ⟨?_, ?_, ?_, ?_, ?_⟩
  · simp [hP2]
  · simp
  · simp
  · simp [declared_length, List.getD]
  · simp [header_rejected, declared_length, List.getD, hP2]

theorem take_drop_five (X : List Byte) : (X.drop 5).take (X.length - 5) = X.drop 5 :=
  List.take_of_length_le (by rw [List.length_drop])

/-- C14: for every framed block `X` that `decompress` accepts in header mode, when
the optimizer, run on the payload of `X` with the declared length as capacity,
reports `LZO_E_OK` and the declared length, and the payload as it rewrote it in
place gives the same result of the safe decompressor as the payload of `X`, then
`optimize` succeeds on `X` in header mode and `decompress (optimize X)` returns
what `decompress X` returns. -/
theorem optimize_preserves_decoding (L : Library) (mem : Nat → Byte) (X : List Byte)
    (header header2 buflen buflen2 : Int) (out : List Byte)
    (hh : header ≠ 0) (hh2 : header2 ≠ 0)
    (hvalid : decompress L mem X header buflen = PyResult.ok out)
    (hok : (L.lzo1x_optimize (X.drop 5) (declared_length X)).err = L.LZO_E_OK)
    (hlen : (L.lzo1x_optimize (X.drop 5) (declared_length X)).len = declared_length X)
    (hsame : L.lzo1x_decompress_safe
        (store (X.drop 5) (L.lzo1x_optimize (X.drop 5) (declared_length X)).data)
        (declared_length X) =
      L.lzo1x_decompress_safe (X.drop 5) (declared_length X)) :
    ∃ Y, optimize L X header2 buflen2 = PyResult.ok Y ∧
      Y.length = X.length ∧
      decompress L mem Y header buflen = PyResult.ok out := by
  have hv : ¬ header_rejected X := by
    intro hr
    rw [decompress_header_rejected L mem X header buflen hh hr] at hvalid
    cases hvalid
  have h8 := header_rejected_length X hv
  obtain ⟨f1, -, f3, f4, f5⟩ := header_rejected_frame X
    (store (X.drop 5) (L.lzo1x_optimize (X.drop 5) (declared_length X)).data)
    (by rw [store_length, List.length_drop]) (by omega)
  refine ⟨X.take 5 ++ store (X.drop 5) (L.lzo1x_optimize (X.drop 5) (declared_length X)).data,
    ?_, f1, ?_⟩
  · rw [optimize_header_accepted L X header2 buflen2 hh2 hv, take_drop_five,
      if_neg (by rw [not_or]; exact ⟨not_not.mpr hok, not_not.mpr hlen⟩)]
  · rw [decompress_header_accepted L mem _ header buflen hh (fun hr => hv (f5.1 hr)),
      f3, f4, hsame]
    rw [decompress_header_accepted L mem X header buflen hh hv] at hvalid
    exact hvalid

/-- C14, at a concrete input: the framed block `f0 00 00 00 02 07 09 00 00 00`
decompresses to `07 09` before and after `optimize`. -/
theorem optimize_preserves_decoding_witness :
    (1 : Int) ≠ 0 ∧
    decompress (padLibrary 3) junk [0xf0, 0, 0, 0, 2, 7, 9, 0, 0, 0] 1 (-1) =
      PyResult.ok [7, 9] ∧
    ((padLibrary 3).lzo1x_optimize [7, 9, 0, 0, 0] 2).err = (padLibrary 3).LZO_E_OK ∧
    ((padLibrary 3).lzo1x_optimize [7, 9, 0, 0, 0] 2).len = 2 ∧
    ∃ Y, optimize (padLibrary 3) [0xf0, 0, 0, 0, 2, 7, 9, 0, 0, 0] 1 (-1) = PyResult.ok Y ∧
      Y.length = 10 ∧
      decompress (padLibrary 3) junk Y 1 (-1) = PyResult.ok [7, 9] :=
  ⟨by decide, by decide, by decide, by decide,
    optimize_preserves_decoding (padLibrary 3) junk [0xf0, 0, 0, 0, 2, 7, 9, 0, 0, 0]
      1 1 (-1) (-1) [7, 9] (by decide) (by decide) (by decide) (by decide) (by decide)
      (by decide)⟩

/-- C15: whenever `optimize` succeeds, the block it returns is as long as the
input; in header mode its first 5 bytes are the first 5 bytes of the input and
the rest is the payload region as the optimizer left it; with header mode off the
block is the whole buffer as the optimizer left it; and the caller's input buffer
is the same after the call, because the optimizer writes into the copy. -/
theorem optimize_frame (L : Library) (input : List Byte) (header buflen : Int)
    (blk : List Byte) (h : optimize L input header buflen = PyResult.ok blk) :
    blk.length = input.length ∧
    (header ≠ 0 → blk.take 5 = input.take 5) ∧
    (header ≠ 0 → blk.drop 5 =
      store (input.drop 5) (L.lzo1x_optimize (input.drop 5) (declared_length input)).data) ∧
    (header = 0 → blk = store input (L.lzo1x_optimize input buflen.toNat).data) ∧
    optimize_buffers L input header buflen = (PyResult.ok blk, input) := by
  have hbuf : optimize_buffers L input header buflen = (PyResult.ok blk, input) := by
    rw [optimize_buffers_eq, h]
  by_cases hh : header = 0
  · subst hh
    by_cases hb : buflen < 0
    · rw [optimize_headerless_missing L input buflen hb] at h
      cases h
    · rw [optimize_headerless_eq L input buflen (by omega), List.take_length] at h
      split at h
      · cases h
      · cases h
        exact ⟨store_length _ _, fun h0 => absurd rfl h0, fun h0 => absurd rfl h0,
          fun _ => rfl, hbuf⟩
  · by_cases hr : header_rejected input
    · rw [optimize_header_rejected L input header buflen hh hr] at h
      cases h
    · have h8 := header_rejected_length input hr
      rw [optimize_header_accepted L input header buflen hh hr, take_drop_five] at h
      split at h
      · cases h
      · obtain ⟨f1, f2, f3, -, -⟩ := header_rejected_frame input
          (store (input.drop 5)
            (L.lzo1x_optimize (input.drop 5) (declared_length input)).data)
          (by rw [store_length, List.length_drop]) (by omega)
        cases h
        exact ⟨f1, fun _ => f2, fun _ => f3, fun h0 => absurd h0 hh, hbuf⟩

/-- C15, at a concrete input: `optimize` on the framed block
`f0 00 00 00 02 07 09 00 00 00` returns a block of the same 10 bytes' length with
the same 5-byte header, and leaves the caller's buffer as it was. -/
theorem optimize_frame_witness :
    optimize (padLibrary 3) [0xf0, 0, 0, 0, 2, 7, 9, 0, 0, 0] 1 (-1) =
      PyResult.ok [0xf0, 0, 0, 0, 2, 7, 9, 0, 0, 0] ∧
    ([0xf0, 0, 0, 0, 2, 7, 9, 0, 0, 0] : List Byte).length = 10 ∧
    ([0xf0, 0, 0, 0, 2, 7, 9, 0, 0, 0] : List Byte).take 5 = [0xf0, 0, 0, 0, 2] ∧
    optimize_buffers (padLibrary 3) [0xf0, 0, 0, 0, 2, 7, 9, 0, 0, 0] 1 (-1) =
      (PyResult.ok [0xf0, 0, 0, 0, 2, 7, 9, 0, 0, 0], [0xf0, 0, 0, 0, 2, 7, 9, 0, 0, 0]) :=
  ⟨by decide,
    (optimize_frame (padLibrary 3) [0xf0, 0, 0, 0, 2, 7, 9, 0, 0, 0] 1 (-1)
      [0xf0, 0, 0, 0, 2, 7, 9, 0, 0, 0] (by decide)).1,
    (optimize_frame (padLibrary 3) [0xf0, 0, 0, 0, 2, 7, 9, 0, 0, 0] 1 (-1)
      [0xf0, 0, 0, 0, 2, 7, 9, 0, 0, 0] (by decide)).2.1 (by decide),
    (optimize_frame (padLibrary 3) [0xf0, 0, 0, 0, 2, 7, 9, 0, 0, 0] 1 (-1)
      [0xf0, 0, 0, 0, 2, 7, 9, 0, 0, 0] (by decide)).2.2.2.2⟩

end Lzo
